import Mathlib

/-!
Verification of the reconnecting-websocket wrapper (src/index.ts).

The source is a single-threaded, event-driven JavaScript module.  We embed it
shallowly:

* JS numbers (delays, the grow factor) are modeled as exact rationals `ℚ`;
  the spec and the claims reason in real arithmetic and no claim depends on
  floating-point rounding.
* `maxRetries` (default `Infinity`) is modeled as `Option ℕ`, `none` standing
  for `Infinity`.
* `Math.random()` draws are environment inputs: every event that runs a
  handler consuming a draw carries the drawn rational as a parameter.
* The reconnection state machine (the closures of `ReconnectingWebsocket`:
  `connect`, the `open`/`close` handlers, the timers, `close()`) is embedded as
  an explicit state type `State` plus a step function `step` over environment
  actions; timers are a pending-task list, the single-threaded event loop is
  the nondeterministic choice of which enabled action fires next.
* The listener registry (`listeners`, `addEventListener`,
  `reassignEventListeners`) is embedded separately, since it does not interact
  with the retry state.  JS event-type strings and listener function references
  are abstracted as identifiers (`ℕ`).
* The shared `DEFAULT_OPTIONS` table and the constructor's config merge are
  embedded with the table threaded through constructions, mirroring the
  `const config = DEFAULT_OPTIONS` aliasing in the source (the merge writes
  through to the shared table).
-/

/-- Numeric/retry configuration of one instance, i.e. the fields of the merged
`config` object that the reconnection logic reads (src/index.ts lines 1-9). -/
structure Config where
  minReconnectionDelay : ℚ
  maxReconnectionDelay : ℚ
  reconnectionDelayGrowFactor : ℚ
  connectionTimeout : ℚ
  maxRetries : Option ℕ
  debug : Bool
deriving DecidableEq

/-- Source lines 20-21: `config.minReconnectionDelay + Math.random() * config.minReconnectionDelay`,
with the `Math.random()` draw `r` passed explicitly. -/
def initReconnectionDelay (cfg : Config) (r : ℚ) : ℚ :=
  cfg.minReconnectionDelay + r * cfg.minReconnectionDelay

/-- Source lines 23-28: grow the previous delay by the factor, capped at
`maxReconnectionDelay`. -/
def updateReconnectionDelay (cfg : Config) (previousDelay : ℚ) : ℚ :=
  let newDelay := previousDelay * cfg.reconnectionDelayGrowFactor
  if newDelay > cfg.maxReconnectionDelay then cfg.maxReconnectionDelay else newDelay

/-- Source lines 117-121, the delay computation of the `close` handler:
`if (!reconnectDelay) reconnectDelay = init ... else reconnectDelay = update ...`.
A JS number is falsy exactly when it is `0` (or `NaN`, which `ℚ` has not). -/
def closeDelayStep (cfg : Config) (d r : ℚ) : ℚ :=
  if d = 0 then initReconnectionDelay cfg r else updateReconnectionDelay cfg d

/-- Source line 113: `retriesCount > config.maxRetries`, where `maxRetries`
may be `Infinity` (`none`), against which every count compares small. -/
def exceedsMax (cfg : Config) (n : ℕ) : Bool :=
  match cfg.maxRetries with
  | none => false
  | some k => decide (k < n)

/-- A lifecycle event of the underlying socket as seen by the two handlers
that touch `reconnectDelay`; each carries the `Math.random()` draw that the
handler would consume. -/
inductive WsEvent where
  | evOpened (r : ℚ)
  | evClosed (r : ℚ)
deriving DecidableEq

/-- Evolution of the `reconnectDelay` variable under the `open` handler
(line 104: `reconnectDelay = initReconnectionDelay(config)`) and the `close`
handler (lines 117-121), starting from a given value of the variable.
This is the delay evolution on runs where `maxRetries` is never exceeded
(e.g. under the default `maxRetries: Infinity`); the exceeded branch of the
close handler returns before touching the delay and is covered by the full
machine below. -/
def delayFold (cfg : Config) : ℚ → List WsEvent → ℚ
  | d, [] => d
  | _, WsEvent.evOpened r :: es => delayFold cfg (initReconnectionDelay cfg r) es
  | d, WsEvent.evClosed r :: es => delayFold cfg (closeDelayStep cfg d r) es

/-- Backoff delay after `n` consecutive `close` events from construction
(the variable starts at the sentinel `0`, line 45) with no intervening `open`.
Only the first close consumes the draw `r` (the later ones take the
`updateReconnectionDelay` branch whenever the delay is nonzero). -/
def delaySeq (cfg : Config) (r : ℚ) : ℕ → ℚ
  | 0 => 0
  | n + 1 => closeDelayStep cfg (delaySeq cfg r n) r

/-- Connection status of one underlying socket instance.  `closing` is a
socket whose `close()` method has been invoked but whose `close` event has not
yet been delivered; `closed` is a socket whose `close` event already fired
(it fires at most once). -/
inductive SockStatus where
  | connecting
  | opened
  | closing
  | closed
deriving DecidableEq

/-- Status transition performed by the socket's `close()` method: a live
socket starts closing, a closing or closed socket is unaffected. -/
def closeTransition : SockStatus → SockStatus
  | SockStatus.connecting => SockStatus.closing
  | SockStatus.opened => SockStatus.closing
  | st => st

/-- An error code carried by the synthetic errors of `emitError`. -/
inductive ErrCode where
  | ETIMEDOUT
  | EHOSTDOWN
deriving DecidableEq

/-- A pending `setTimeout` callback.  `timeout g` is the connection-timeout
timer created by the `connect` that built socket generation `g` (lines 87-91);
`reconnect d` is a `setTimeout(connect, d)` from line 125; `emitErr c` is the
deferred dispatch scheduled by `emitError` (lines 71-80). -/
inductive TaskKind where
  | timeout (g : ℕ)
  | reconnect (d : ℚ)
  | emitErr (c : ErrCode)
deriving DecidableEq

def isReconnect : TaskKind → Bool
  | TaskKind.reconnect _ => true
  | _ => false

def isTimeoutTask : TaskKind → Bool
  | TaskKind.timeout _ => true
  | _ => false

def isEmitEhost : TaskKind → Bool
  | TaskKind.emitErr ErrCode.EHOSTDOWN => true
  | _ => false

def isEhostErr : ErrCode → Bool
  | ErrCode.EHOSTDOWN => true
  | _ => false

/-- The mutable state of one `ReconnectingWebsocket` instance together with
its environment: socket generation `g` is `sockets[g]`; the socket bound to
the `ws` variable is always the most recently created one (only `connect`
assigns `ws`); `pending` are the outstanding `setTimeout` callbacks;
`errors` are the error codes whose deferred dispatch has run. -/
structure State where
  sockets : List SockStatus
  reconnectDelay : ℚ
  retriesCount : ℕ
  shouldRetry : Bool
  pending : List TaskKind
  errors : List ErrCode
deriving DecidableEq

/-- Status of socket generation `g`; generations never created count as
closed (no event can fire on them). -/
def statusOf (s : State) (g : ℕ) : SockStatus :=
  s.sockets.getD g SockStatus.closed

/-- Generation currently bound to the `ws` variable: the last one created. -/
def curGen (s : State) : ℕ :=
  s.sockets.length - 1

/-- Effect of invoking `ws.close()` on socket generation `g`. -/
def jsClose (s : State) (g : ℕ) : State :=
  { s with sockets := s.sockets.set g (closeTransition (statusOf s g)) }

/-- Body of `connect()` (lines 82-130) as it affects this state: build a fresh
socket (the new `ws`) and start its connection-timeout timer.  Handler
registration is implicit (the handlers are the `sockOpen`/`sockClose` actions
below); `reassignEventListeners` acts only on the listener registry, which is
modeled separately; the `bypassProperty` loop touches neither the retry state
nor the registry. -/
def connectRun (s : State) : State :=
  { s with
    sockets := s.sockets ++ [SockStatus.connecting],
    pending := s.pending ++ [TaskKind.timeout s.sockets.length] }

/-- Body of the `close` handler (lines 109-127), run after the socket that
fired the event has been marked closed: bump `retriesCount`; if the retry
budget is exceeded, schedule the deferred `EHOSTDOWN` error and return;
otherwise recompute the delay and, if `shouldRetry` still holds, schedule
`connect` after it. -/
def closeEvent (cfg : Config) (s : State) (r : ℚ) : State :=
  if exceedsMax cfg (s.retriesCount + 1) then
    { s with retriesCount := s.retriesCount + 1,
             pending := s.pending ++ [TaskKind.emitErr ErrCode.EHOSTDOWN] }
  else if s.shouldRetry then
    { s with retriesCount := s.retriesCount + 1,
             reconnectDelay := closeDelayStep cfg s.reconnectDelay r,
             pending := s.pending ++ [TaskKind.reconnect (closeDelayStep cfg s.reconnectDelay r)] }
  else
    { s with retriesCount := s.retriesCount + 1,
             reconnectDelay := closeDelayStep cfg s.reconnectDelay r }

/-- Firing of one pending `setTimeout` callback (the task has already been
removed from the queue).  The connection-timeout callback (lines 87-91) closes
whichever socket the `ws` variable holds at fire time and calls `emitError`
with `ETIMEDOUT`; a retry callback runs `connect`; a deferred `emitError`
dispatch delivers its error code. -/
def runTask (s : State) : TaskKind → State
  | TaskKind.timeout _ =>
    { sockets := (jsClose s (curGen s)).sockets,
      reconnectDelay := s.reconnectDelay, retriesCount := s.retriesCount,
      shouldRetry := s.shouldRetry,
      pending := s.pending ++ [TaskKind.emitErr ErrCode.ETIMEDOUT],
      errors := s.errors }
  | TaskKind.reconnect _ => connectRun s
  | TaskKind.emitErr c => { s with errors := s.errors ++ [c] }

/-- An action the environment (the event loop plus the caller) can perform:
deliver an `open` or `close` event on socket generation `g` (with the random
draw the handler would consume), fire the `i`-th pending timer callback, or
have the caller invoke the public `close()` (lines 135-138). -/
inductive EnvAct where
  | sockOpen (g : ℕ) (r : ℚ)
  | sockClose (g : ℕ) (r : ℚ)
  | fireTask (i : ℕ)
  | callerClose
deriving DecidableEq

/-- One step of the machine; `none` when the action is not enabled.  An `open`
event can fire only on a connecting socket and runs the `open` handler (lines
101-107): clear the pending connection-timeout timer of the current `connect`
(the `connectingTimeout` variable always holds the timer of generation
`curGen`, since `connect` assigns `ws` and `connectingTimeout` together),
reset the delay to a fresh initial draw, zero the retry count.  A `close`
event can fire on any not-yet-closed socket, marks it closed and runs the
`close` handler.  `cfg` is the per-instance merged config. -/
def step (cfg : Config) (s : State) : EnvAct → Option State
  | EnvAct.sockOpen g r =>
    if statusOf s g = SockStatus.connecting then
      some { s with
        sockets := s.sockets.set g SockStatus.opened,
        pending := s.pending.filter (fun t => decide (t ≠ TaskKind.timeout (curGen s))),
        reconnectDelay := initReconnectionDelay cfg r,
        retriesCount := 0 }
    else none
  | EnvAct.sockClose g r =>
    if statusOf s g = SockStatus.closed then none
    else some (closeEvent cfg { s with sockets := s.sockets.set g SockStatus.closed } r)
  | EnvAct.fireTask i =>
    match s.pending[i]? with
    | none => none
    | some t => some (runTask { s with pending := s.pending.eraseIdx i } t)
  | EnvAct.callerClose =>
    some { sockets := (jsClose s (curGen s)).sockets,
           reconnectDelay := s.reconnectDelay, retriesCount := s.retriesCount,
           shouldRetry := false, pending := s.pending, errors := s.errors }

/-- Run a list of actions from a state; fails if any action is not enabled. -/
def execRun (cfg : Config) : State → List EnvAct → Option State
  | s, [] => some s
  | s, a :: as =>
    match step cfg s a with
    | none => none
    | some s' => execRun cfg s' as

/-- State right after the constructor returned: the constructor calls
`connect()` once (line 133) on the freshly initialized variables
(lines 43-48). -/
def initState : State :=
  connectRun
    { sockets := [], reconnectDelay := 0, retriesCount := 0,
      shouldRetry := true, pending := [], errors := [] }

/-- States of this instance reachable by some run of the event loop. -/
def Reachable (cfg : Config) (s : State) : Prop :=
  ∃ acts : List EnvAct, execRun cfg initState acts = some s

/-- Number of pending `setTimeout(connect, _)` callbacks. -/
def reconCount (s : State) : ℕ :=
  s.pending.countP isReconnect

/-- Number of `EHOSTDOWN` emissions, dispatched or still pending: every
scheduled deferred dispatch fires eventually (nothing ever cancels an
`emitError` timer), so this counts the `EHOSTDOWN` errors the run emits. -/
def ehostTotal (s : State) : ℕ :=
  s.errors.countP isEhostErr + s.pending.countP isEmitEhost

/-- Every superseded socket (every generation but the current one) has already
delivered its `close` event. -/
def staleClosed (s : State) : Prop :=
  ∀ g, g + 1 < s.sockets.length → statusOf s g = SockStatus.closed

/-- Inductive invariant of the machine: at least one socket exists; stale
sockets are closed; at most one reconnect is pending, and only while the
current socket is closed; once the retry budget is exceeded everything is
closed and no reconnect is pending; and the number of `EHOSTDOWN` emissions
is `1` exactly after the budget is exceeded, else `0`. -/
def MachineInv (cfg : Config) (s : State) : Prop :=
  s.sockets ≠ [] ∧
  staleClosed s ∧
  reconCount s ≤ 1 ∧
  (1 ≤ reconCount s → statusOf s (curGen s) = SockStatus.closed) ∧
  (exceedsMax cfg s.retriesCount = true →
    statusOf s (curGen s) = SockStatus.closed ∧ reconCount s = 0) ∧
  ehostTotal s = (if exceedsMax cfg s.retriesCount then 1 else 0)

/-- JS event-type strings are abstracted as identifiers. -/
abbrev EvType := Nat

/-- A listener is identified by its function reference (`l === listener` in
the source compares references); abstracted as an identifier. -/
abbrev ListenerRef := Nat

/-- The third `addEventListener` argument, stored but never inspected. -/
abbrev ListenerOpts := Nat

/-- The `listeners` object (line 48): event type, then the ordered array of
`[listener, options]` pairs.  JS object keys of this shape enumerate in
insertion order, so an association list is a faithful model. -/
abbrev Registry := List (EvType × List (ListenerRef × ListenerOpts))

/-- Lookup `listeners[type]`; `none` when the key is absent
(`Array.isArray(listeners[type])` false). -/
def regFind : Registry → EvType → Option (List (ListenerRef × ListenerOpts))
  | [], _ => none
  | p :: R, t => if p.1 == t then some p.2 else regFind R t

/-- The registered pairs for a type, `[]` when the key is absent. -/
def regList (R : Registry) (t : EvType) : List (ListenerRef × ListenerOpts) :=
  (regFind R t).getD []

/-- Registry effect of `this.addEventListener` (lines 140-149): if an array
for the type exists and already has this listener reference, do nothing; else
push the pair; if no array exists, create a singleton.  (Line 148 additionally
registers on the live socket, which is the `sockAddListener` below.) -/
def addEventListenerReg (R : Registry) (t : EvType) (l : ListenerRef) (o : ListenerOpts) :
    Registry :=
  match regFind R t with
  | some arr =>
    if arr.any (fun q => q.1 == l) then R
    else R.map (fun p => if p.1 == t then (p.1, p.2 ++ [(l, o)]) else p)
  | none => R ++ [(t, [(l, o)])]

/-- The listeners attached to one underlying socket instance, in attachment
order. -/
abbrev SockListeners := List (EvType × ListenerRef × ListenerOpts)

/-- The (type, listener) identity of an attachment, the key by which the DOM
`addEventListener` of the underlying socket deduplicates. -/
def keyOf (x : EvType × ListenerRef × ListenerOpts) : EvType × ListenerRef :=
  (x.1, x.2.1)

/-- `ws.addEventListener` on the underlying socket: a no-op when the same
(type, listener) pair is already attached, per DOM semantics. -/
def sockAddListener (L : SockListeners) (t : EvType) (l : ListenerRef) (o : ListenerOpts) :
    SockListeners :=
  if L.any (fun q => q.1 == t && q.2.1 == l) then L else L ++ [(t, l, o)]

/-- The sequence of `ws.addEventListener(type, listener, options)` calls made
by `reassignEventListeners` (lines 30-36): for each type in key order, each
registered pair in insertion order. -/
def attachSeq (R : Registry) : SockListeners :=
  R.foldr (fun p acc => (p.2.map (fun q => (p.1, q.1, q.2))) ++ acc) []

/-- `reassignEventListeners(ws, listeners)` applied to a socket whose current
attachment list is `L`. -/
def reassignEventListeners (L : SockListeners) (R : Registry) : SockListeners :=
  (attachSeq R).foldl (fun acc x => sockAddListener acc x.1 x.2.1 x.2.2) L

/-- Listeners a socket with attachments `L` calls, in order, when it fires an
event of type `t`. -/
def deliveries (L : SockListeners) (t : EvType) : List ListenerRef :=
  (L.filter (fun q => q.1 == t)).map (fun q => q.2.1)

/-- Well-formedness of the registry object: one array per type key, and no
duplicate listener reference within an array.  Holds for the empty registry
and is preserved by `addEventListenerReg`. -/
def WFReg (R : Registry) : Prop :=
  (R.map Prod.fst).Nodup ∧ ∀ p ∈ R, (p.2.map Prod.fst).Nodup

/-- The JS value stored in an options field that the constructor inspects
with `typeof`: only whether it is a function matters. -/
inductive JSVal where
  | jsFunction
  | jsNull
  | jsOther
deriving DecidableEq

/-- The mutable `DEFAULT_OPTIONS` table (lines 1-9) or one of its later
states.  The `constructor` field is named `ctorVal` here. -/
structure OptionsTable where
  ctorVal : JSVal
  maxReconnectionDelay : ℚ
  minReconnectionDelay : ℚ
  reconnectionDelayGrowFactor : ℚ
  connectionTimeout : ℚ
  maxRetriesBound : Option ℕ
  debug : Bool
deriving DecidableEq

/-- The caller's options argument: own properties only; absent keys are
`none` (line 58 filters on `options.hasOwnProperty(key)`). -/
structure PartialOptions where
  ctorVal : Option JSVal := none
  maxReconnectionDelay : Option ℚ := none
  minReconnectionDelay : Option ℚ := none
  reconnectionDelayGrowFactor : Option ℚ := none
  connectionTimeout : Option ℚ := none
  maxRetriesBound : Option (Option ℕ) := none
  debug : Option Bool := none
deriving DecidableEq

/-- Initial `DEFAULT_OPTIONS` (lines 1-9); the `constructor` default is the
global `WebSocket` if that is a function, else `null`. -/
def DEFAULT_OPTIONS (hasGlobalWebSocket : Bool) : OptionsTable :=
  { ctorVal := if hasGlobalWebSocket then JSVal.jsFunction else JSVal.jsNull,
    maxReconnectionDelay := 10000,
    minReconnectionDelay := 1500,
    reconnectionDelayGrowFactor := 13 / 10,
    connectionTimeout := 4000,
    maxRetriesBound := none,
    debug := false }

/-- The merge loop of lines 57-59: for each key of the table that the options
object owns, write the option value into the table. -/
def mergeInto (tbl : OptionsTable) (o : PartialOptions) : OptionsTable :=
  { ctorVal := o.ctorVal.getD tbl.ctorVal,
    maxReconnectionDelay := o.maxReconnectionDelay.getD tbl.maxReconnectionDelay,
    minReconnectionDelay := o.minReconnectionDelay.getD tbl.minReconnectionDelay,
    reconnectionDelayGrowFactor :=
      o.reconnectionDelayGrowFactor.getD tbl.reconnectionDelayGrowFactor,
    connectionTimeout := o.connectionTimeout.getD tbl.connectionTimeout,
    maxRetriesBound := o.maxRetriesBound.getD tbl.maxRetriesBound,
    debug := o.debug.getD tbl.debug }

/-- The two synchronous `TypeError` throws of the constructor
(lines 51-53 and 61-63). -/
inductive CtorError where
  | notAConstructorCall
  | webSocketCtorNotSet
deriving DecidableEq

/-- The configuration part of the constructor (lines 51-63), acting on the
shared table: the `new`-check precedes the merge; `const config =
DEFAULT_OPTIONS` (line 56) aliases the shared table, so the merge writes into
it and the returned instance config IS the (new state of the) shared table.
The result pairs the outcome (the merged config, or the thrown error) with the
state the shared table is left in. -/
def constructStep (tbl : OptionsTable) (calledWithNew : Bool) (o : PartialOptions) :
    Except CtorError OptionsTable × OptionsTable :=
  if calledWithNew = false then (Except.error CtorError.notAConstructorCall, tbl)
  else
    let config := mergeInto tbl o
    if config.ctorVal ≠ JSVal.jsFunction then (Except.error CtorError.webSocketCtorNotSet, config)
    else (Except.ok config, config)

/-- Concrete config for the C1 run: `minReconnectionDelay 100`,
`maxReconnectionDelay 10000`, grow factor `2`, unbounded retries. -/
def cfgC1 : Config :=
  { minReconnectionDelay := 100, maxReconnectionDelay := 10000,
    reconnectionDelayGrowFactor := 2, connectionTimeout := 4000,
    maxRetries := none, debug := false }

/-- State after the run `open` (draw 0) then `close` (draw 0) under `cfgC1`. -/
def c1runState : State :=
  { sockets := [SockStatus.closed], reconnectDelay := 200, retriesCount := 1,
    shouldRetry := true, pending := [TaskKind.reconnect 200], errors := [] }

/-- Concrete config witnessing the amended C2: grow factor `2 ≥ 1` and first
draw `100 ≤ 10000`. -/
def cfgC2w : Config :=
  { minReconnectionDelay := 100, maxReconnectionDelay := 10000,
    reconnectionDelayGrowFactor := 2, connectionTimeout := 4000,
    maxRetries := none, debug := false }

/-- Concrete config refuting the monotonicity conjunct of C2: grow factor
`1/2 < 1` shrinks the delay on every retry. -/
def cfgC2c : Config :=
  { minReconnectionDelay := 100, maxReconnectionDelay := 10000,
    reconnectionDelayGrowFactor := 1 / 2, connectionTimeout := 4000,
    maxRetries := none, debug := false }

/-- Concrete config for C3 with `maxRetries 0`: the first failure already
exhausts the budget. -/
def cfgC3 : Config :=
  { minReconnectionDelay := 100, maxReconnectionDelay := 10000,
    reconnectionDelayGrowFactor := 2, connectionTimeout := 4000,
    maxRetries := some 0, debug := false }

/-- State after the single `close` under `cfgC3`: budget exceeded, deferred
`EHOSTDOWN` scheduled, nothing else scheduled. -/
def c3stall : State :=
  { sockets := [SockStatus.closed], reconnectDelay := 0, retriesCount := 1,
    shouldRetry := true,
    pending := [TaskKind.timeout 0, TaskKind.emitErr ErrCode.EHOSTDOWN], errors := [] }

/-- Concrete config for the C4 run. -/
def cfgC4 : Config :=
  { minReconnectionDelay := 100, maxReconnectionDelay := 10000,
    reconnectionDelayGrowFactor := 2, connectionTimeout := 4000,
    maxRetries := none, debug := false }

/-- State after the first `close` under `cfgC4`: a reconnect is scheduled. -/
def c4afterClose : State :=
  { sockets := [SockStatus.closed], reconnectDelay := 100, retriesCount := 1,
    shouldRetry := true,
    pending := [TaskKind.timeout 0, TaskKind.reconnect 100], errors := [] }

/-- State after the caller then invokes `close()`: the latch is set but the
scheduled reconnect is still pending. -/
def c4latched : State :=
  { sockets := [SockStatus.closed], reconnectDelay := 100, retriesCount := 1,
    shouldRetry := false,
    pending := [TaskKind.timeout 0, TaskKind.reconnect 100], errors := [] }

/-- State after the pending reconnect fires anyway: a second socket was
created after the caller's `close()`. -/
def c4final : State :=
  { sockets := [SockStatus.closed, SockStatus.connecting], reconnectDelay := 100,
    retriesCount := 1, shouldRetry := false,
    pending := [TaskKind.timeout 0, TaskKind.timeout 1], errors := [] }

/-- Concrete config for the C9 witness. -/
def cfgC9 : Config :=
  { minReconnectionDelay := 100, maxReconnectionDelay := 10000,
    reconnectionDelayGrowFactor := 2, connectionTimeout := 4000,
    maxRetries := none, debug := false }

/-- A latched instance whose socket is being shut down by `close()` but has
not yet delivered its `close` event. -/
def c9start : State :=
  { sockets := [SockStatus.closing], reconnectDelay := 0, retriesCount := 0,
    shouldRetry := false, pending := [], errors := [] }

/-- State after that final `close` event: the handler still ran (count bumped,
delay recomputed) but no reconnect was scheduled. -/
def c9next : State :=
  { sockets := [SockStatus.closed], reconnectDelay := 100, retriesCount := 1,
    shouldRetry := false, pending := [], errors := [] }

/-- Concrete config for the C10 witness. -/
def cfgC10 : Config :=
  { minReconnectionDelay := 100, maxReconnectionDelay := 10000,
    reconnectionDelayGrowFactor := 2, connectionTimeout := 4000,
    maxRetries := none, debug := false }

/-- State reached by `close` on generation 0 (whose connect never saw `open`)
followed by the scheduled reconnect: generation 1 is connecting and the stale
connection-timeout timer of generation 0 is still pending. -/
def c10mid : State :=
  { sockets := [SockStatus.closed, SockStatus.connecting], reconnectDelay := 100,
    retriesCount := 1, shouldRetry := true,
    pending := [TaskKind.timeout 0, TaskKind.timeout 1], errors := [] }

/-- State after generation 0's stale timer fires: it force-closes the fresh
generation-1 socket and schedules the deferred `ETIMEDOUT`. -/
def c10fin : State :=
  { sockets := [SockStatus.closed, SockStatus.closing], reconnectDelay := 100,
    retriesCount := 1, shouldRetry := true,
    pending := [TaskKind.timeout 1, TaskKind.emitErr ErrCode.ETIMEDOUT], errors := [] }

/-- Shared-table state after a first construction passing
`maxReconnectionDelay: 5`. -/
def tableAfterFirst : OptionsTable :=
  (constructStep (DEFAULT_OPTIONS true) true { maxReconnectionDelay := some 5 }).2

/-- Config observed by a second instance constructed with an empty options
object after that first construction. -/
def secondInstanceConfig : OptionsTable :=
  (constructStep tableAfterFirst true {}).2

/-- Concrete configs for the C7 witness and counterexample. -/
def cfgC7 : Config :=
  { minReconnectionDelay := 1500, maxReconnectionDelay := 10000,
    reconnectionDelayGrowFactor := 13 / 10, connectionTimeout := 4000,
    maxRetries := none, debug := false }

/-- Degenerate config with `minReconnectionDelay = 0`: the interval
`[m, 2m)` is empty. -/
def cfgC7z : Config :=
  { minReconnectionDelay := 0, maxReconnectionDelay := 10000,
    reconnectionDelayGrowFactor := 13 / 10, connectionTimeout := 4000,
    maxRetries := none, debug := false }

/-- The capped growth step of lines 23-28 is exactly a two-sided minimum. -/
theorem updateReconnectionDelay_eq_min (cfg : Config) (d : ℚ) :
    updateReconnectionDelay cfg d =
      min (d * cfg.reconnectionDelayGrowFactor) cfg.maxReconnectionDelay := by
  simp only [updateReconnectionDelay]
  split
  · next h => exact (min_eq_right (le_of_lt h)).symm
  · next h => exact (min_eq_left (le_of_not_lt h)).symm

/-- Folding the handlers distributes over run concatenation. -/
theorem delayFold_append (cfg : Config) (d : ℚ) (xs ys : List WsEvent) :
    delayFold cfg d (xs ++ ys) = delayFold cfg (delayFold cfg d xs) ys := by
  induction xs generalizing d with
  | nil => rfl
  | cons e es ih => cases e <;> simp [delayFold, ih]

/-- Under positive `minReconnectionDelay`, a nonnegative draw, a grow factor
of at least one, and a first draw within the cap, every delay of the backoff
sequence from the first on is positive and capped. -/
theorem delaySeq_pos_le (cfg : Config) (r : ℚ)
    (hm : 0 < cfg.minReconnectionDelay) (hr0 : 0 ≤ r)
    (hg : 1 ≤ cfg.reconnectionDelayGrowFactor)
    (hM : initReconnectionDelay cfg r ≤ cfg.maxReconnectionDelay) :
    ∀ k, 0 < delaySeq cfg r (k + 1) ∧ delaySeq cfg r (k + 1) ≤ cfg.maxReconnectionDelay := by
  have e1 : delaySeq cfg r 1 = initReconnectionDelay cfg r := by
    show closeDelayStep cfg 0 r = _
    unfold closeDelayStep
    rw [if_pos rfl]
  intro k
  induction k with
  | zero =>
    rw [show (0 : ℕ) + 1 = 1 from rfl, e1]
    refine ⟨?_, hM⟩
    simp only [initReconnectionDelay]
    nlinarith
  | succ n ih =>
    have hne : delaySeq cfg r (n + 1) ≠ 0 := ne_of_gt ih.1
    have hstep : delaySeq cfg r (n + 1 + 1) =
        min (delaySeq cfg r (n + 1) * cfg.reconnectionDelayGrowFactor)
          cfg.maxReconnectionDelay := by
      have e2 : delaySeq cfg r (n + 1 + 1) = closeDelayStep cfg (delaySeq cfg r (n + 1)) r := rfl
      rw [e2]
      unfold closeDelayStep
      rw [if_neg hne, updateReconnectionDelay_eq_min]
    constructor
    · rw [hstep]
      have h1 : 0 < delaySeq cfg r (n + 1) * cfg.reconnectionDelayGrowFactor := by nlinarith [ih.1]
      have h2 : 0 < cfg.maxReconnectionDelay := lt_of_lt_of_le ih.1 ih.2
      exact lt_min h1 h2
    · rw [hstep]
      exact min_le_right _ _

/-- Claim C7, amended to positive `minReconnectionDelay`: for every `m > 0`
and draw `r ∈ [0,1)`, the first computed backoff delay equals `m + r * m`
and lies in `[m, 2m)`.  (For `m = 0` the interval is empty, see the
counterexample.) -/
theorem c7_first_delay_formula_and_range (cfg : Config) (r : ℚ)
    (hm : 0 < cfg.minReconnectionDelay) (hr0 : 0 ≤ r) (hr1 : r < 1) :
    initReconnectionDelay cfg r =
      cfg.minReconnectionDelay + r * cfg.minReconnectionDelay ∧
    initReconnectionDelay cfg r ∈
      Set.Ico cfg.minReconnectionDelay (2 * cfg.minReconnectionDelay) := by
  refine ⟨rfl, ?_⟩
  rw [Set.mem_Ico]
  unfold initReconnectionDelay
  constructor
  · nlinarith
  · nlinarith

/-- Witness for C7 at the default configuration and the draw `1/2`. -/
theorem c7_witness :
    (0 : ℚ) < cfgC7.minReconnectionDelay ∧
    initReconnectionDelay cfgC7 (1 / 2) ∈
      Set.Ico cfgC7.minReconnectionDelay (2 * cfgC7.minReconnectionDelay) :=
  ⟨by norm_num [cfgC7],
   (c7_first_delay_formula_and_range cfgC7 (1 / 2) (by norm_num [cfgC7]) (by norm_num)
      (by norm_num)).2⟩

/-- Counterexample to C7 as stated: with `minReconnectionDelay = 0` the
computed first delay (`0`) does not lie in `[m, 2m) = [0, 0)`. -/
theorem c7_counterexample :
    initReconnectionDelay cfgC7z (1 / 2) ∉
      Set.Ico cfgC7z.minReconnectionDelay (2 * cfgC7z.minReconnectionDelay) := by
  rw [Set.mem_Ico]
  norm_num [initReconnectionDelay, cfgC7z]

/-- Claim C2, amended with the side conditions the code needs
(`growFactor ≥ 1`, positive `minReconnectionDelay`, nonnegative draw, first
draw within the cap): over consecutive closes without an intervening open,
the k-th delay (k ≥ 2) equals `min(delay_{k-1} * growFactor,
maxReconnectionDelay)`, and the whole sequence is non-decreasing and bounded
by `maxReconnectionDelay`. -/
theorem c2_backoff_recurrence_monotone_bounded (cfg : Config) (r : ℚ)
    (hm : 0 < cfg.minReconnectionDelay) (hr0 : 0 ≤ r)
    (hg : 1 ≤ cfg.reconnectionDelayGrowFactor)
    (hM : initReconnectionDelay cfg r ≤ cfg.maxReconnectionDelay) :
    (∀ k, 1 ≤ k → delaySeq cfg r (k + 1) =
        min (delaySeq cfg r k * cfg.reconnectionDelayGrowFactor)
          cfg.maxReconnectionDelay) ∧
    (∀ k, delaySeq cfg r k ≤ delaySeq cfg r (k + 1)) ∧
    (∀ k, delaySeq cfg r k ≤ cfg.maxReconnectionDelay) := by
  have hpos := delaySeq_pos_le cfg r hm hr0 hg hM
  have hrec : ∀ k, 1 ≤ k → delaySeq cfg r (k + 1) =
      min (delaySeq cfg r k * cfg.reconnectionDelayGrowFactor) cfg.maxReconnectionDelay := by
    intro k hk
    obtain ⟨n, rfl⟩ := Nat.exists_eq_add_of_le hk
    have hne : delaySeq cfg r (1 + n) ≠ 0 := by
      rw [Nat.add_comm]
      exact ne_of_gt (hpos n).1
    have e2 : delaySeq cfg r (1 + n + 1) = closeDelayStep cfg (delaySeq cfg r (1 + n)) r := rfl
    rw [e2]
    unfold closeDelayStep
    rw [if_neg hne, updateReconnectionDelay_eq_min]
  refine ⟨hrec, ?_, ?_⟩
  · intro k
    cases k with
    | zero =>
      have := (hpos 0).1
      simpa [delaySeq] using this.le
    | succ n =>
      rw [hrec (n + 1) (Nat.le_add_left 1 n)]
      refine le_min ?_ (hpos n).2
      nlinarith [(hpos n).1]
  · intro k
    cases k with
    | zero =>
      have h1 := (hpos 0).1
      have h2 := (hpos 0).2
      have : delaySeq cfg r 0 = 0 := rfl
      rw [this]
      linarith
    | succ n => exact (hpos n).2

/-- Witness for C2 at `m = 100`, `M = 10000`, grow factor `2`, draw `0`:
third delay satisfies the recurrence, and the sequence steps are ordered and
capped. -/
theorem c2_witness :
    (0 : ℚ) < cfgC2w.minReconnectionDelay ∧
    delaySeq cfgC2w 0 3 =
      min (delaySeq cfgC2w 0 2 * cfgC2w.reconnectionDelayGrowFactor)
        cfgC2w.maxReconnectionDelay ∧
    delaySeq cfgC2w 0 2 ≤ delaySeq cfgC2w 0 3 ∧
    delaySeq cfgC2w 0 3 ≤ cfgC2w.maxReconnectionDelay := by
  have h := c2_backoff_recurrence_monotone_bounded cfgC2w 0 (by norm_num [cfgC2w])
    (by norm_num) (by norm_num [cfgC2w])
    (by norm_num [cfgC2w, initReconnectionDelay])
  exact ⟨by norm_num [cfgC2w], h.1 2 (by norm_num), h.2.1 2, h.2.2 3⟩

/-- Counterexample to C2 as stated: with grow factor `1/2` the delay
sequence decreases from the second step on, so it is not non-decreasing. -/
theorem c2_counterexample :
    ¬ delaySeq cfgC2c 0 1 ≤ delaySeq cfgC2c 0 2 := by
  norm_num [delaySeq, closeDelayStep, initReconnectionDelay, updateReconnectionDelay, cfgC2c]

/-- Claim C1, amended: after any successful `open` the delay is a fresh
initial draw made by the `open` handler (so it does not continue the prior
backoff chain — the whole history `H` before the `open` is irrelevant), but
the first `close` after that `open` grows the draw once, so the delay used
for the next failure is `min((m + r1*m) * growFactor, maxReconnectionDelay)`
rather than a value in `[m, 2m)`. -/
theorem c1_delay_after_reopen (cfg : Config) (d0 : ℚ) (H : List WsEvent) (r1 r2 : ℚ)
    (hm : 0 < cfg.minReconnectionDelay) (hr0 : 0 ≤ r1) :
    delayFold cfg d0 (H ++ [WsEvent.evOpened r1, WsEvent.evClosed r2]) =
      updateReconnectionDelay cfg (initReconnectionDelay cfg r1) ∧
    delayFold cfg d0 (H ++ [WsEvent.evOpened r1, WsEvent.evClosed r2]) =
      min ((cfg.minReconnectionDelay + r1 * cfg.minReconnectionDelay) *
          cfg.reconnectionDelayGrowFactor) cfg.maxReconnectionDelay := by
  have hne : initReconnectionDelay cfg r1 ≠ 0 := by
    unfold initReconnectionDelay
    nlinarith
  have h1 : delayFold cfg d0 (H ++ [WsEvent.evOpened r1, WsEvent.evClosed r2]) =
      updateReconnectionDelay cfg (initReconnectionDelay cfg r1) := by
    rw [delayFold_append]
    show closeDelayStep cfg (initReconnectionDelay cfg r1) r2 = _
    unfold closeDelayStep
    rw [if_neg hne]
  refine ⟨h1, h1.trans ?_⟩
  rw [updateReconnectionDelay_eq_min]
  rfl

/-- Witness for C1 applied after a nonempty prior history. -/
theorem c1_witness :
    delayFold cfgC1 7 ([WsEvent.evClosed (1 / 3)] ++ [WsEvent.evOpened 0, WsEvent.evClosed 0]) =
      updateReconnectionDelay cfgC1 (initReconnectionDelay cfgC1 0) :=
  (c1_delay_after_reopen cfgC1 7 [WsEvent.evClosed (1 / 3)] 0 0 (by norm_num [cfgC1])
    (by norm_num)).1

/-- Counterexample to C1 as stated: on the run `open` (draw 0) then `close`
under `m = 100`, grow factor `2`, the machine schedules the next connect with
delay `200`, which is not in `[m, 2m) = [100, 200)`. -/
theorem c1_counterexample :
    execRun cfgC1 initState [EnvAct.sockOpen 0 0, EnvAct.sockClose 0 0] = some c1runState ∧
    TaskKind.reconnect 200 ∈ c1runState.pending ∧
    (200 : ℚ) ∉ Set.Ico cfgC1.minReconnectionDelay (2 * cfgC1.minReconnectionDelay) := by
  refine ⟨?_, by norm_num [c1runState], ?_⟩
  · norm_num [execRun, step, statusOf, curGen, initState, connectRun, closeEvent,
      closeDelayStep, updateReconnectionDelay, initReconnectionDelay, exceedsMax,
      jsClose, runTask, closeTransition, cfgC1, c1runState]
    decide
  · rw [Set.mem_Ico]
    norm_num [cfgC1]

/-- Counting over a list with one indexed element removed. -/
theorem countP_eraseIdx_eq {α : Type} (p : α → Bool) :
    ∀ (l : List α) (i : ℕ) (t : α), l[i]? = some t →
      l.countP p = (l.eraseIdx i).countP p + (if p t then 1 else 0) := by
  intro l
  induction l with
  | nil => intro i t h; simp at h
  | cons a tl ih =>
    intro i t h
    cases i with
    | zero =>
      simp only [List.getElem?_cons_zero, Option.some.injEq] at h
      subst h
      simp [List.countP_cons, List.eraseIdx]
    | succ i =>
      simp only [List.getElem?_cons_succ] at h
      have := ih i t h
      simp [List.countP_cons, List.eraseIdx, this]
      omega

/-- Filtering by a predicate that a count predicate implies preserves the
count. -/
theorem countP_filter_eq {α : Type} (p q : α → Bool) (h : ∀ a, p a = true → q a = true) :
    ∀ l : List α, (l.filter q).countP p = l.countP p := by
  intro l
  induction l with
  | nil => rfl
  | cons a tl ih =>
    by_cases hq : q a = true
    · simp [List.filter_cons, hq, List.countP_cons, ih]
    · have hp : p a = false := by
        cases hpa : p a with
        | true => exact absurd (h a hpa) hq
        | false => rfl
      simp [List.filter_cons, hq, List.countP_cons, ih, hp]

/-- Writing a socket status does not change the status read at another
generation. -/
theorem statusOf_set_ne (s : State) {g g' : ℕ} (hne : g ≠ g') (st : SockStatus) :
    statusOf { s with sockets := s.sockets.set g st } g' = statusOf s g' := by
  simp [statusOf, List.getD, List.getElem?_set_ne hne]

/-- Writing an in-range socket status is read back. -/
theorem statusOf_set_self (s : State) {g : ℕ} (h : g < s.sockets.length) (st : SockStatus) :
    statusOf { s with sockets := s.sockets.set g st } g = st := by
  simp [statusOf, List.getD, List.getElem?_set_self, h]

/-- `ws.close()` on generation `g` moves its status along `closeTransition`
(also out of range, where both sides read `closed`). -/
theorem statusOf_jsClose_self (s : State) (g : ℕ) :
    statusOf (jsClose s g) g = closeTransition (statusOf s g) := by
  by_cases h : g < s.sockets.length
  · simp [jsClose, statusOf, List.getD, List.getElem?_set_self, h]
  · have hge : s.sockets.length ≤ g := le_of_not_lt h
    have hnone : s.sockets[g]? = none := by
      rw [List.getElem?_eq_none_iff]
      exact hge
    simp [jsClose, List.set_eq_of_length_le hge, statusOf, List.getD, hnone, closeTransition]

/-- `ws.close()` does not change the status of other generations. -/
theorem statusOf_jsClose_ne (s : State) {g g' : ℕ} (hne : g ≠ g') :
    statusOf (jsClose s g) g' = statusOf s g' := by
  simp [jsClose, statusOf, List.getD, List.getElem?_set_ne hne]

/-- Claim C4, amended: after the caller invokes `close()`, `shouldRetry` is
false permanently and no step ever schedules a new reconnect attempt — every
reconnect callback pending after a step was already pending before it.
However, a reconnect scheduled before the `close()` call is not cancelled and
still executes (line 135-138 clears no timer); see the counterexample. -/
theorem c4_latch_no_new_reconnect (cfg : Config) (s s' : State) (a : EnvAct)
    (hlatch : s.shouldRetry = false) (hstep : step cfg s a = some s') :
    s'.shouldRetry = false ∧
    ∀ t ∈ s'.pending, isReconnect t = true → t ∈ s.pending := by
  cases a with
  | sockOpen g r =>
    simp only [step] at hstep
    split at hstep
    · rw [Option.some.injEq] at hstep
      subst hstep
      refine ⟨hlatch, ?_⟩
      intro t ht _
      exact List.mem_of_mem_filter ht
    · exact absurd hstep (by simp)
  | sockClose g r =>
    simp only [step] at hstep
    split at hstep
    · exact absurd hstep (by simp)
    · rw [Option.some.injEq] at hstep
      subst hstep
      unfold closeEvent
      split
      · refine ⟨hlatch, ?_⟩
        intro t ht hrec
        rcases List.mem_append.1 ht with h | h
        · exact h
        · simp only [List.mem_singleton] at h
          subst h
          simp [isReconnect] at hrec
      · constructor
        · rw [hlatch]
          simp
        · intro t ht _
          rw [hlatch] at ht
          simp only [Bool.false_eq_true, if_false] at ht
          exact ht
  | fireTask i =>
    simp only [step] at hstep
    cases hidx : s.pending[i]? with
    | none => rw [hidx] at hstep; exact absurd hstep (by simp)
    | some t0 =>
      rw [hidx] at hstep
      rw [Option.some.injEq] at hstep
      subst hstep
      have herase : ∀ t ∈ (s.pending.eraseIdx i), t ∈ s.pending :=
        fun t ht => (List.eraseIdx_sublist s.pending i).mem ht
      cases t0 with
      | timeout g0 =>
        refine ⟨hlatch, ?_⟩
        intro t ht hrec
        rcases List.mem_append.1 ht with h | h
        · exact herase t h
        · simp only [List.mem_singleton] at h
          subst h
          simp [isReconnect] at hrec
      | reconnect d =>
        refine ⟨hlatch, ?_⟩
        intro t ht hrec
        rcases List.mem_append.1 ht with h | h
        · exact herase t h
        · simp only [List.mem_singleton] at h
          subst h
          simp [isReconnect] at hrec
      | emitErr c =>
        exact ⟨hlatch, fun t ht _ => herase t ht⟩
  | callerClose =>
    simp only [step, Option.some.injEq] at hstep
    subst hstep
    exact ⟨rfl, fun t ht _ => ht⟩

/-- Field-level description of the close handler's result. -/
theorem closeEvent_fields (cfg : Config) (s : State) (r : ℚ) :
    (closeEvent cfg s r).retriesCount = s.retriesCount + 1 ∧
    (closeEvent cfg s r).sockets = s.sockets ∧
    (closeEvent cfg s r).errors = s.errors ∧
    (closeEvent cfg s r).shouldRetry = s.shouldRetry ∧
    (closeEvent cfg s r).reconnectDelay =
      (if exceedsMax cfg (s.retriesCount + 1) then s.reconnectDelay
       else closeDelayStep cfg s.reconnectDelay r) ∧
    (closeEvent cfg s r).pending =
      (if exceedsMax cfg (s.retriesCount + 1) then
        s.pending ++ [TaskKind.emitErr ErrCode.EHOSTDOWN]
       else if s.shouldRetry then
        s.pending ++ [TaskKind.reconnect (closeDelayStep cfg s.reconnectDelay r)]
       else s.pending) := by
  unfold closeEvent
  split
  · simp
  · split
    · simp
    · simp

/-- Claim C9: a `close` event arriving after the caller's `close()` is not
inert — the handler still increments the retry count, still recomputes the
delay (when the budget is not exceeded), still emits `EHOSTDOWN` (when it
is), and in fact produces exactly the state the un-latched handler would,
except that no reconnect is scheduled. -/
theorem c9_close_event_after_terminate (cfg : Config) (s s' : State) (g : ℕ) (r : ℚ)
    (hlatch : s.shouldRetry = false) (hstep : step cfg s (EnvAct.sockClose g r) = some s') :
    s'.retriesCount = s.retriesCount + 1 ∧
    (exceedsMax cfg (s.retriesCount + 1) = true →
      TaskKind.emitErr ErrCode.EHOSTDOWN ∈ s'.pending) ∧
    (exceedsMax cfg (s.retriesCount + 1) = false →
      s'.reconnectDelay = closeDelayStep cfg s.reconnectDelay r) ∧
    reconCount s' = reconCount s ∧
    (step cfg { s with shouldRetry := true } (EnvAct.sockClose g r)).map
        (fun u => (u.retriesCount, u.reconnectDelay, u.errors, u.sockets)) =
      some (s'.retriesCount, s'.reconnectDelay, s'.errors, s'.sockets) := by
  simp only [step] at hstep ⊢
  split at hstep
  · exact absurd hstep (by simp)
  · next hne =>
    rw [Option.some.injEq] at hstep
    subst hstep
    have hf := closeEvent_fields cfg { s with sockets := s.sockets.set g SockStatus.closed } r
    have hfu := closeEvent_fields cfg
      { s with shouldRetry := true, sockets := s.sockets.set g SockStatus.closed } r
    have hguard : statusOf { s with shouldRetry := true } g = statusOf s g := rfl
    rw [hguard, if_neg hne]
    refine ⟨hf.1, ?_, ?_, ?_, ?_⟩
    · intro hex
      rw [hf.2.2.2.2.2]
      show _ ∈ if exceedsMax cfg (s.retriesCount + 1) = true then _ else _
      rw [if_pos hex]
      exact List.mem_append_right _ (by simp)
    · intro hex
      rw [hf.2.2.2.2.1]
      show (if exceedsMax cfg (s.retriesCount + 1) = true then _ else _) = _
      rw [if_neg (by rw [hex]; exact Bool.false_ne_true)]
    · rw [reconCount, reconCount, hf.2.2.2.2.2]
      show List.countP _ (if exceedsMax cfg (s.retriesCount + 1) = true then _ else _) = _
      split
      · rw [List.countP_append]
        simp [isReconnect]
      · show List.countP _ (if s.shouldRetry = true then _ else _) = _
        rw [hlatch]
        simp
    · rw [Option.map_eq_some']
      refine ⟨_, rfl, ?_⟩
      have e1 : (closeEvent cfg
          { s with shouldRetry := true, sockets := s.sockets.set g SockStatus.closed } r).retriesCount =
          s.retriesCount + 1 := hfu.1
      have e2 := hfu.2.2.2.2.1
      have e3 := hf.2.2.2.2.1
      have e4 := hfu.2.1
      have e5 := hf.2.1
      have e6 := hfu.2.2.1
      have e7 := hf.2.2.1
      refine Prod.ext ?_ (Prod.ext ?_ (Prod.ext ?_ ?_)) <;> simp only []
      · rw [e1, hf.1]
      · rw [e2, e3]
      · rw [e6, e7]
      · rw [e4, e5]

/-- Witness for C4: applying the latch theorem at the concrete latched state
and the step that fires the pending reconnect. -/
theorem c4_witness :
    c4latched.shouldRetry = false ∧ c4final.shouldRetry = false :=
  ⟨rfl,
   (c4_latch_no_new_reconnect cfgC4 c4latched c4final (EnvAct.fireTask 1) rfl
     (by norm_num [step, runTask, connectRun, jsClose, statusOf, curGen, closeTransition,
       c4latched, c4final])).1⟩

/-- Counterexample to C4 as stated: a reconnect scheduled before the caller's
`close()` still executes afterwards — the run closes the socket (scheduling a
retry), the caller then calls `close()`, and the pending retry nevertheless
fires `connect`, creating a second socket. -/
theorem c4_counterexample :
    execRun cfgC4 initState [EnvAct.sockClose 0 0] = some c4afterClose ∧
    step cfgC4 c4afterClose EnvAct.callerClose = some c4latched ∧
    c4latched.shouldRetry = false ∧
    step cfgC4 c4latched (EnvAct.fireTask 1) = some c4final ∧
    c4final.sockets.length = c4latched.sockets.length + 1 := by
  refine ⟨?_, ?_, rfl, ?_, rfl⟩
  · norm_num [execRun, step, statusOf, curGen, initState, connectRun, closeEvent,
      closeDelayStep, updateReconnectionDelay, initReconnectionDelay, exceedsMax,
      jsClose, runTask, closeTransition, cfgC4, c4afterClose]
    decide
  · norm_num [step, jsClose, statusOf, curGen, closeTransition, c4afterClose, c4latched]
  · norm_num [step, runTask, connectRun, jsClose, statusOf, curGen, closeTransition,
      c4latched, c4final]

/-- Witness for C9 at a concrete latched state whose socket is shutting
down. -/
theorem c9_witness :
    c9start.shouldRetry = false ∧ c9next.retriesCount = c9start.retriesCount + 1 :=
  ⟨rfl,
   (c9_close_event_after_terminate cfgC9 c9start c9next 0 0 rfl
     (by norm_num [step, statusOf, closeEvent, exceedsMax, closeDelayStep,
       initReconnectionDelay, updateReconnectionDelay, cfgC9, c9start, c9next]; decide)).1⟩

/-- Claim C10: the connection-timeout timer is cleared only by the `open`
handler.  A `close` event cancels no pending timer (every timer pending
before the close handler is still pending after it), and when a pending
connection-timeout callback fires it invokes `close()` on whichever socket is
current at that moment — possibly a later attempt's fresh socket, as the
witness shows — and schedules the deferred `ETIMEDOUT` error. -/
theorem c10_timeout_cleared_only_on_open (cfg : Config) (s : State) :
    (∀ g r s', step cfg s (EnvAct.sockClose g r) = some s' →
      ∀ t ∈ s.pending, t ∈ s'.pending) ∧
    (∀ i g0 s', s.pending[i]? = some (TaskKind.timeout g0) →
      step cfg s (EnvAct.fireTask i) = some s' →
      statusOf s' (curGen s) = closeTransition (statusOf s (curGen s)) ∧
      TaskKind.emitErr ErrCode.ETIMEDOUT ∈ s'.pending) := by
  constructor
  · intro g r s' hstep t ht
    simp only [step] at hstep
    split at hstep
    · exact absurd hstep (by simp)
    · rw [Option.some.injEq] at hstep
      subst hstep
      rw [(closeEvent_fields cfg { s with sockets := s.sockets.set g SockStatus.closed } r).2.2.2.2.2]
      show t ∈ if exceedsMax cfg (s.retriesCount + 1) = true then _ else _
      split
      · exact List.mem_append_left _ ht
      · show t ∈ if s.shouldRetry = true then _ else _
        split
        · exact List.mem_append_left _ ht
        · exact ht
  · intro i g0 s' hidx hstep
    simp only [step] at hstep
    rw [hidx, Option.some.injEq] at hstep
    subst hstep
    constructor
    · exact statusOf_jsClose_self { s with pending := s.pending.eraseIdx i } (curGen s)
    · show TaskKind.emitErr ErrCode.ETIMEDOUT ∈ _ ++ [TaskKind.emitErr ErrCode.ETIMEDOUT]
      exact List.mem_append_right _ (by simp)

/-- Witness for C10: from the state where generation 1 is freshly connecting
and generation 0's stale timer is still pending, firing that stale timer
force-closes the current (generation-1) socket and schedules `ETIMEDOUT`. -/
theorem c10_witness :
    c10mid.pending[0]? = some (TaskKind.timeout 0) ∧
    step cfgC10 c10mid (EnvAct.fireTask 0) = some c10fin ∧
    statusOf c10fin (curGen c10mid) = closeTransition (statusOf c10mid (curGen c10mid)) ∧
    TaskKind.emitErr ErrCode.ETIMEDOUT ∈ c10fin.pending := by
  have hstep : step cfgC10 c10mid (EnvAct.fireTask 0) = some c10fin := by
    norm_num [step, runTask, jsClose, statusOf, curGen, closeTransition, c10mid, c10fin]
  have h := (c10_timeout_cleared_only_on_open cfgC10 c10mid).2 0 0 c10fin rfl hstep
  exact ⟨rfl, hstep, h.1, h.2⟩

/-- A retry count of zero never exceeds the budget. -/
theorem exceedsMax_zero (cfg : Config) : exceedsMax cfg 0 = false := by
  unfold exceedsMax
  cases cfg.maxRetries <;> simp

/-- Generations that were never created read as closed. -/
theorem statusOf_default (s : State) {g : ℕ} (h : s.sockets.length ≤ g) :
    statusOf s g = SockStatus.closed := by
  simp [statusOf, List.getD, List.getElem?_eq_none_iff.2 h]

/-- Status only depends on the socket list. -/
theorem statusOf_eq_of_sockets {s1 s2 : State} (h : s1.sockets = s2.sockets) (g : ℕ) :
    statusOf s1 g = statusOf s2 g := by
  simp [statusOf, h]

/-- Under the staleness invariant, the only generation that can be in a
not-yet-closed state is the current one. -/
theorem live_is_current (s : State) (hstale : staleClosed s) {g : ℕ}
    (h : statusOf s g ≠ SockStatus.closed) :
    g = curGen s ∧ g < s.sockets.length := by
  have hlt : g < s.sockets.length := by
    by_contra hge
    exact h (statusOf_default s (le_of_not_lt hge))
  have hnot : ¬ (g + 1 < s.sockets.length) := fun hc => h (hstale g hc)
  refine ⟨?_, hlt⟩
  simp only [curGen]
  omega

/-- Preservation: one enabled step keeps the machine invariant. -/
theorem machineInv_step (cfg : Config) (s s' : State) (a : EnvAct)
    (hInv : MachineInv cfg s) (hstep : step cfg s a = some s') : MachineInv cfg s' := by
  obtain ⟨hne, hstale, hrc1, hrcclosed, hexc, hehost⟩ := hInv
  have hlen0 : 0 < s.sockets.length := List.length_pos.2 hne
  have hrcD : reconCount s = s.pending.countP isReconnect := rfl
  cases a with
  | sockOpen g r =>
    simp only [step] at hstep
    split at hstep
    case isFalse => exact absurd hstep (by simp)
    case isTrue hcon =>
    rw [Option.some.injEq] at hstep
    subst hstep
    have hgcur : g = curGen s ∧ g < s.sockets.length :=
      live_is_current s hstale (by rw [hcon]; intro hx; cases hx)
    have hrc0 : reconCount s = 0 := by
      by_contra hx
      have hcl : statusOf s (curGen s) = SockStatus.closed := hrcclosed (by omega)
      rw [← hgcur.1, hcon] at hcl
      cases hcl
    have hq : ∀ t : TaskKind, isReconnect t = true →
        decide (t ≠ TaskKind.timeout (curGen s)) = true := by
      intro t ht
      cases t with
      | reconnect d => simp
      | timeout g0 => simp [isReconnect] at ht
      | emitErr c => simp [isReconnect] at ht
    have hq2 : ∀ t : TaskKind, isEmitEhost t = true →
        decide (t ≠ TaskKind.timeout (curGen s)) = true := by
      intro t ht
      cases t with
      | emitErr c => simp
      | timeout g0 => simp [isEmitEhost] at ht
      | reconnect d => simp [isEmitEhost] at ht
    have hexf : exceedsMax cfg s.retriesCount = false := by
      cases hv : exceedsMax cfg s.retriesCount
      · rfl
      · have hcl := (hexc hv).1
        rw [← hgcur.1, hcon] at hcl
        cases hcl
    have hrcnew : (s.pending.filter
        (fun t => decide (t ≠ TaskKind.timeout (curGen s)))).countP isReconnect = 0 := by
      rw [countP_filter_eq isReconnect _ hq]
      exact hrc0
    refine ⟨?_, ?_, ?_, ?_, ?_, ?_⟩
    · show s.sockets.set g SockStatus.opened ≠ []
      intro hx
      have hlx := congrArg List.length hx
      rw [List.length_set, List.length_nil] at hlx
      omega
    · intro g2 hg2
      have hg2' : g2 + 1 < s.sockets.length := by
        simpa [List.length_set] using hg2
      have hne2 : g ≠ g2 := by
        have hc := hgcur.1
        simp only [curGen] at hc
        omega
      exact (statusOf_set_ne s hne2 SockStatus.opened).trans (hstale g2 hg2')
    · show (s.pending.filter
        (fun t => decide (t ≠ TaskKind.timeout (curGen s)))).countP isReconnect ≤ 1
      rw [hrcnew]
      omega
    · intro hx
      have hx' : 1 ≤ (s.pending.filter
          (fun t => decide (t ≠ TaskKind.timeout (curGen s)))).countP isReconnect := hx
      rw [hrcnew] at hx'
      omega
    · intro hx
      have hx' : exceedsMax cfg 0 = true := hx
      rw [exceedsMax_zero] at hx'
      cases hx'
    · show s.errors.countP isEhostErr + (s.pending.filter
        (fun t => decide (t ≠ TaskKind.timeout (curGen s)))).countP isEmitEhost =
        if exceedsMax cfg 0 then 1 else 0
      rw [countP_filter_eq isEmitEhost _ hq2, exceedsMax_zero]
      rw [hexf] at hehost
      simpa [ehostTotal] using hehost
  | sockClose g r =>
    simp only [step] at hstep
    split at hstep
    case isTrue => exact absurd hstep (by simp)
    case isFalse hncl =>
    rw [Option.some.injEq] at hstep
    subst hstep
    have hgcur : g = curGen s ∧ g < s.sockets.length := live_is_current s hstale hncl
    have hrc0 : reconCount s = 0 := by
      by_contra hx
      exact hncl (by rw [hgcur.1]; exact hrcclosed (by omega))
    have hrc0' : s.pending.countP isReconnect = 0 := hrc0
    have hexf : exceedsMax cfg s.retriesCount = false := by
      cases hv : exceedsMax cfg s.retriesCount
      · rfl
      · exact absurd (by rw [hgcur.1]; exact (hexc hv).1 : statusOf s g = SockStatus.closed) hncl
    have h0 : s.errors.countP isEhostErr = 0 ∧ s.pending.countP isEmitEhost = 0 := by
      have h00 : ehostTotal s = 0 := by
        rw [hehost, hexf]
        rfl
      unfold ehostTotal at h00
      omega
    set ce := closeEvent cfg { s with sockets := s.sockets.set g SockStatus.closed } r with hce
    have hf := closeEvent_fields cfg { s with sockets := s.sockets.set g SockStatus.closed } r
    rw [← hce] at hf
    have hsock : ce.sockets = s.sockets.set g SockStatus.closed := hf.2.1
    have hretr : ce.retriesCount = s.retriesCount + 1 := hf.1
    have herr : ce.errors = s.errors := hf.2.2.1
    have hpend : ce.pending =
        (if exceedsMax cfg (s.retriesCount + 1) then
          s.pending ++ [TaskKind.emitErr ErrCode.EHOSTDOWN]
        else if s.shouldRetry then
          s.pending ++ [TaskKind.reconnect (closeDelayStep cfg s.reconnectDelay r)]
        else s.pending) := hf.2.2.2.2.2
    have hlencur : curGen ce = curGen s := by
      simp only [curGen]
      rw [hsock, List.length_set]
    have hclosed : statusOf ce (curGen ce) = SockStatus.closed := by
      rw [hlencur,
        @statusOf_eq_of_sockets ce { s with sockets := s.sockets.set g SockStatus.closed }
          hsock (curGen s), ← hgcur.1]
      exact statusOf_set_self s hgcur.2 SockStatus.closed
    refine ⟨?_, ?_, ?_, ?_, ?_, ?_⟩
    · rw [show ce.sockets = s.sockets.set g SockStatus.closed from hsock]
      intro hx
      have hlx := congrArg List.length hx
      rw [List.length_set, List.length_nil] at hlx
      omega
    · intro g2 hg2
      rw [hsock, List.length_set] at hg2
      have hne2 : g ≠ g2 := by
        have hc := hgcur.1
        simp only [curGen] at hc
        omega
      rw [@statusOf_eq_of_sockets ce { s with sockets := s.sockets.set g SockStatus.closed }
        hsock g2]
      exact (statusOf_set_ne s hne2 SockStatus.closed).trans (hstale g2 hg2)
    · show ce.pending.countP isReconnect ≤ 1
      rw [hpend]
      split
      · rw [List.countP_append]
        simp [isReconnect, hrc0']
      · split
        · rw [List.countP_append]
          simp [isReconnect, hrc0']
        · omega
    · intro _
      exact hclosed
    · intro hx
      rw [hretr] at hx
      refine ⟨hclosed, ?_⟩
      show ce.pending.countP isReconnect = 0
      rw [hpend, if_pos hx, List.countP_append]
      simp [isReconnect, hrc0']
    · show ce.errors.countP isEhostErr + ce.pending.countP isEmitEhost =
        if exceedsMax cfg ce.retriesCount then 1 else 0
      rw [herr, hpend, hretr]
      cases hex : exceedsMax cfg (s.retriesCount + 1)
      · simp only [Bool.false_eq_true, if_false]
        split
        · rw [List.countP_append]
          simp [isEmitEhost, h0.1, h0.2]
        · simp [h0.1, h0.2]
      · simp only [if_true]
        rw [List.countP_append]
        simp [isEmitEhost, h0.1, h0.2]
  | fireTask i =>
    have hcglen : curGen s < s.sockets.length := by
      simp only [curGen]
      omega
    simp only [step] at hstep
    cases hidx : s.pending[i]? with
    | none => rw [hidx] at hstep; exact absurd hstep (by simp)
    | some t =>
      rw [hidx, Option.some.injEq] at hstep
      subst hstep
      have hcR : s.pending.countP isReconnect =
          (s.pending.eraseIdx i).countP isReconnect + (if isReconnect t = true then 1 else 0) :=
        countP_eraseIdx_eq isReconnect s.pending i t hidx
      have hcE : s.pending.countP isEmitEhost =
          (s.pending.eraseIdx i).countP isEmitEhost + (if isEmitEhost t = true then 1 else 0) :=
        countP_eraseIdx_eq isEmitEhost s.pending i t hidx
      have hrc1' : s.pending.countP isReconnect ≤ 1 := hrc1
      cases t with
      | timeout g0 =>
        have hs' : runTask { s with pending := s.pending.eraseIdx i } (TaskKind.timeout g0) =
            { sockets := s.sockets.set (curGen s) (closeTransition (statusOf s (curGen s))),
              reconnectDelay := s.reconnectDelay, retriesCount := s.retriesCount,
              shouldRetry := s.shouldRetry,
              pending := s.pending.eraseIdx i ++ [TaskKind.emitErr ErrCode.ETIMEDOUT],
              errors := s.errors } := rfl
        rw [hs']
        have hifR : (if isReconnect (TaskKind.timeout g0) = true then 1 else 0) = 0 := rfl
        have hifE : (if isEmitEhost (TaskKind.timeout g0) = true then 1 else 0) = 0 := rfl
        have hsingR : [TaskKind.emitErr ErrCode.ETIMEDOUT].countP isReconnect = 0 := rfl
        have hsingE : [TaskKind.emitErr ErrCode.ETIMEDOUT].countP isEmitEhost = 0 := rfl
        have hcR0 : (s.pending.eraseIdx i).countP isReconnect
            = s.pending.countP isReconnect := by omega
        have hcE0 : (s.pending.eraseIdx i).countP isEmitEhost
            = s.pending.countP isEmitEhost := by omega
        refine ⟨?_, ?_, ?_, ?_, ?_, ?_⟩
        · show s.sockets.set (curGen s) (closeTransition (statusOf s (curGen s))) ≠ []
          intro hx
          have hlx := congrArg List.length hx
          rw [List.length_set, List.length_nil] at hlx
          omega
        · intro g2 hg2
          have hg2' : g2 + 1 < s.sockets.length := by
            have hg2a : g2 + 1 < (s.sockets.set (curGen s)
                (closeTransition (statusOf s (curGen s)))).length := hg2
            rwa [List.length_set] at hg2a
          have hne2 : curGen s ≠ g2 := by
            simp only [curGen]
            omega
          exact (statusOf_set_ne s hne2 (closeTransition (statusOf s (curGen s)))).trans
            (hstale g2 hg2')
        · show ((s.pending.eraseIdx i) ++ [TaskKind.emitErr ErrCode.ETIMEDOUT]).countP
            isReconnect ≤ 1
          rw [List.countP_append, hcR0, hsingR]
          omega
        · intro hx
          have hx' : 1 ≤ ((s.pending.eraseIdx i) ++
              [TaskKind.emitErr ErrCode.ETIMEDOUT]).countP isReconnect := hx
          rw [List.countP_append, hcR0, hsingR] at hx'
          have hclosedpre : statusOf s (curGen s) = SockStatus.closed :=
            hrcclosed (by rw [hrcD]; omega)
          have hcur' : curGen ({ sockets := s.sockets.set (curGen s) (closeTransition (statusOf s (curGen s))), reconnectDelay := s.reconnectDelay, retriesCount := s.retriesCount, shouldRetry := s.shouldRetry, pending := s.pending.eraseIdx i ++ [TaskKind.emitErr ErrCode.ETIMEDOUT], errors := s.errors } : State) = curGen s := by
            simp only [curGen, List.length_set]
          rw [hcur']
          exact (statusOf_set_self s hcglen _).trans (by rw [hclosedpre]; rfl)
        · intro hx
          have hx' : exceedsMax cfg s.retriesCount = true := hx
          obtain ⟨hcl, hz⟩ := hexc hx'
          have hcur' : curGen ({ sockets := s.sockets.set (curGen s) (closeTransition (statusOf s (curGen s))), reconnectDelay := s.reconnectDelay, retriesCount := s.retriesCount, shouldRetry := s.shouldRetry, pending := s.pending.eraseIdx i ++ [TaskKind.emitErr ErrCode.ETIMEDOUT], errors := s.errors } : State) = curGen s := by
            simp only [curGen, List.length_set]
          constructor
          · rw [hcur']
            exact (statusOf_set_self s hcglen _).trans (by rw [hcl]; rfl)
          · show ((s.pending.eraseIdx i) ++
                [TaskKind.emitErr ErrCode.ETIMEDOUT]).countP isReconnect = 0
            rw [List.countP_append, hcR0, hsingR]
            rw [hrcD] at hz
            omega
        · show s.errors.countP isEhostErr + ((s.pending.eraseIdx i) ++
              [TaskKind.emitErr ErrCode.ETIMEDOUT]).countP isEmitEhost =
            if exceedsMax cfg s.retriesCount then 1 else 0
          rw [List.countP_append, hcE0, hsingE]
          have hh : ehostTotal s = if exceedsMax cfg s.retriesCount = true then 1 else 0 := hehost
          unfold ehostTotal at hh
          omega
      | reconnect d =>
        have hs' : runTask { s with pending := s.pending.eraseIdx i } (TaskKind.reconnect d) =
            { sockets := s.sockets ++ [SockStatus.connecting],
              reconnectDelay := s.reconnectDelay, retriesCount := s.retriesCount,
              shouldRetry := s.shouldRetry,
              pending := s.pending.eraseIdx i ++ [TaskKind.timeout s.sockets.length],
              errors := s.errors } := rfl
        rw [hs']
        have hifR : (if isReconnect (TaskKind.reconnect d) = true then 1 else 0) = 1 := rfl
        have hifE : (if isEmitEhost (TaskKind.reconnect d) = true then 1 else 0) = 0 := rfl
        have hsingR : [TaskKind.timeout s.sockets.length].countP isReconnect = 0 := rfl
        have hsingE : [TaskKind.timeout s.sockets.length].countP isEmitEhost = 0 := rfl
        have hclosedpre : statusOf s (curGen s) = SockStatus.closed :=
          hrcclosed (by rw [hrcD]; omega)
        have hexf : exceedsMax cfg s.retriesCount = false := by
          cases hv : exceedsMax cfg s.retriesCount
          · rfl
          · have hz := (hexc hv).2
            rw [hrcD] at hz
            omega
        have hcR0 : (s.pending.eraseIdx i).countP isReconnect = 0 := by omega
        have hcE0 : (s.pending.eraseIdx i).countP isEmitEhost
            = s.pending.countP isEmitEhost := by omega
        refine ⟨?_, ?_, ?_, ?_, ?_, ?_⟩
        · show s.sockets ++ [SockStatus.connecting] ≠ []
          simp
        · intro g2 hg2
          have hg2' : g2 < s.sockets.length := by
            have hg2a : g2 + 1 < (s.sockets ++ [SockStatus.connecting]).length := hg2
            rw [List.length_append] at hg2a
            simp only [List.length_singleton] at hg2a
            omega
          have hval : statusOf ({ sockets := s.sockets ++ [SockStatus.connecting], reconnectDelay := s.reconnectDelay, retriesCount := s.retriesCount, shouldRetry := s.shouldRetry, pending := s.pending.eraseIdx i ++ [TaskKind.timeout s.sockets.length], errors := s.errors } : State) g2 = statusOf s g2 := by
            simp [statusOf, List.getD, List.getElem?_append_left hg2']
          rw [hval]
          by_cases hg2b : g2 + 1 < s.sockets.length
          · exact hstale g2 hg2b
          · have hg2c : g2 = curGen s := by
              simp only [curGen]
              omega
            rw [hg2c]
            exact hclosedpre
        · show ((s.pending.eraseIdx i) ++ [TaskKind.timeout s.sockets.length]).countP
            isReconnect ≤ 1
          rw [List.countP_append, hcR0, hsingR]
          omega
        · intro hx
          have hx' : 1 ≤ ((s.pending.eraseIdx i) ++
              [TaskKind.timeout s.sockets.length]).countP isReconnect := hx
          rw [List.countP_append, hcR0, hsingR] at hx'
          omega
        · intro hx
          have hx' : exceedsMax cfg s.retriesCount = true := hx
          rw [hexf] at hx'
          cases hx'
        · show s.errors.countP isEhostErr + ((s.pending.eraseIdx i) ++
              [TaskKind.timeout s.sockets.length]).countP isEmitEhost =
            if exceedsMax cfg s.retriesCount then 1 else 0
          rw [List.countP_append, hcE0, hsingE]
          have hh : ehostTotal s = if exceedsMax cfg s.retriesCount = true then 1 else 0 := hehost
          unfold ehostTotal at hh
          omega
      | emitErr c =>
        have hs' : runTask { s with pending := s.pending.eraseIdx i } (TaskKind.emitErr c) =
            { sockets := s.sockets, reconnectDelay := s.reconnectDelay,
              retriesCount := s.retriesCount, shouldRetry := s.shouldRetry,
              pending := s.pending.eraseIdx i, errors := s.errors ++ [c] } := rfl
        rw [hs']
        refine ⟨?_, ?_, ?_, ?_, ?_, ?_⟩
        · exact hne
        · intro g2 hg2
          have hg2' : g2 + 1 < s.sockets.length := hg2
          have hval : statusOf ({ sockets := s.sockets, reconnectDelay := s.reconnectDelay, retriesCount := s.retriesCount, shouldRetry := s.shouldRetry, pending := s.pending.eraseIdx i, errors := s.errors ++ [c] } : State) g2 = statusOf s g2 := rfl
          rw [hval]
          exact hstale g2 hg2'
        · show (s.pending.eraseIdx i).countP isReconnect ≤ 1
          omega
        · intro hx
          have hx' : 1 ≤ (s.pending.eraseIdx i).countP isReconnect := hx
          have hclosedpre : statusOf s (curGen s) = SockStatus.closed :=
            hrcclosed (by rw [hrcD]; omega)
          have hcur' : curGen ({ sockets := s.sockets, reconnectDelay := s.reconnectDelay, retriesCount := s.retriesCount, shouldRetry := s.shouldRetry, pending := s.pending.eraseIdx i, errors := s.errors ++ [c] } : State) = curGen s := rfl
          rw [hcur']
          exact hclosedpre
        · intro hx
          have hx' : exceedsMax cfg s.retriesCount = true := hx
          obtain ⟨hcl, hz⟩ := hexc hx'
          rw [hrcD] at hz
          refine ⟨hcl, ?_⟩
          show (s.pending.eraseIdx i).countP isReconnect = 0
          omega
        · show (s.errors ++ [c]).countP isEhostErr + (s.pending.eraseIdx i).countP
              isEmitEhost = if exceedsMax cfg s.retriesCount then 1 else 0
          have hh : ehostTotal s = if exceedsMax cfg s.retriesCount = true then 1 else 0 := hehost
          unfold ehostTotal at hh
          rw [List.countP_append]
          cases c with
          | EHOSTDOWN =>
            have h1 : [ErrCode.EHOSTDOWN].countP isEhostErr = 1 := rfl
            have h2 : (if isEmitEhost (TaskKind.emitErr ErrCode.EHOSTDOWN) = true
                then 1 else 0) = 1 := rfl
            rw [h1]
            omega
          | ETIMEDOUT =>
            have h1 : [ErrCode.ETIMEDOUT].countP isEhostErr = 0 := rfl
            have h2 : (if isEmitEhost (TaskKind.emitErr ErrCode.ETIMEDOUT) = true
                then 1 else 0) = 0 := rfl
            rw [h1]
            omega
  | callerClose =>
    have hcglen : curGen s < s.sockets.length := by
      simp only [curGen]
      omega
    simp only [step, Option.some.injEq] at hstep
    subst hstep
    have hs' : ({ sockets := (jsClose s (curGen s)).sockets, reconnectDelay := s.reconnectDelay, retriesCount := s.retriesCount, shouldRetry := false, pending := s.pending, errors := s.errors } : State) = { sockets := s.sockets.set (curGen s) (closeTransition (statusOf s (curGen s))), reconnectDelay := s.reconnectDelay, retriesCount := s.retriesCount, shouldRetry := false, pending := s.pending, errors := s.errors } := rfl
    rw [hs']
    refine ⟨?_, ?_, ?_, ?_, ?_, ?_⟩
    · show s.sockets.set (curGen s) (closeTransition (statusOf s (curGen s))) ≠ []
      intro hx
      have hlx := congrArg List.length hx
      rw [List.length_set, List.length_nil] at hlx
      omega
    · intro g2 hg2
      have hg2' : g2 + 1 < s.sockets.length := by
        have hg2a : g2 + 1 < (s.sockets.set (curGen s)
            (closeTransition (statusOf s (curGen s)))).length := hg2
        rwa [List.length_set] at hg2a
      have hne2 : curGen s ≠ g2 := by
        simp only [curGen]
        omega
      exact (statusOf_set_ne s hne2 (closeTransition (statusOf s (curGen s)))).trans
        (hstale g2 hg2')
    · exact hrc1
    · intro hx
      have hclosedpre : statusOf s (curGen s) = SockStatus.closed := hrcclosed hx
      have hcur' : curGen ({ sockets := s.sockets.set (curGen s) (closeTransition (statusOf s (curGen s))), reconnectDelay := s.reconnectDelay, retriesCount := s.retriesCount, shouldRetry := false, pending := s.pending, errors := s.errors } : State) = curGen s := by
        simp only [curGen, List.length_set]
      rw [hcur']
      exact (statusOf_set_self s hcglen _).trans (by rw [hclosedpre]; rfl)
    · intro hx
      have hx' : exceedsMax cfg s.retriesCount = true := hx
      obtain ⟨hcl, hz⟩ := hexc hx'
      have hcur' : curGen ({ sockets := s.sockets.set (curGen s) (closeTransition (statusOf s (curGen s))), reconnectDelay := s.reconnectDelay, retriesCount := s.retriesCount, shouldRetry := false, pending := s.pending, errors := s.errors } : State) = curGen s := by
        simp only [curGen, List.length_set]
      constructor
      · rw [hcur']
        exact (statusOf_set_self s hcglen _).trans (by rw [hcl]; rfl)
      · exact hz
    · exact hehost

/-- The invariant holds right after construction. -/
theorem machineInv_init (cfg : Config) : MachineInv cfg initState := by
  refine ⟨?_, ?_, ?_, ?_, ?_, ?_⟩
  · show [SockStatus.connecting] ≠ []
    simp
  · intro g hg
    exfalso
    have h1 : initState.sockets.length = 1 := rfl
    omega
  · have h0 : reconCount initState = 0 := rfl
    omega
  · intro hx
    have h0 : reconCount initState = 0 := rfl
    omega
  · intro hx
    have hx' : exceedsMax cfg 0 = true := hx
    rw [exceedsMax_zero] at hx'
    cases hx'
  · show ehostTotal initState = if exceedsMax cfg 0 then 1 else 0
    rw [exceedsMax_zero]
    rfl

/-- The invariant is preserved along any run. -/
theorem machineInv_run (cfg : Config) (s s' : State) (acts : List EnvAct)
    (hInv : MachineInv cfg s) (hrun : execRun cfg s acts = some s') : MachineInv cfg s' := by
  induction acts generalizing s with
  | nil =>
    simp only [execRun, Option.some.injEq] at hrun
    rwa [← hrun]
  | cons a as ih =>
    simp only [execRun] at hrun
    cases hstep : step cfg s a with
    | none => rw [hstep] at hrun; cases hrun
    | some s1 =>
      rw [hstep] at hrun
      exact ih s1 (machineInv_step cfg s s1 a hInv hstep) hrun

/-- Once the retry budget is exceeded, every still-enabled step preserves the
socket count (no connect executes), the retry count, and the number of
`EHOSTDOWN` emissions. -/
theorem stalled_step (cfg : Config) (s s' : State) (a : EnvAct)
    (hInv : MachineInv cfg s) (hex : exceedsMax cfg s.retriesCount = true)
    (hstep : step cfg s a = some s') :
    s'.sockets.length = s.sockets.length ∧ s'.retriesCount = s.retriesCount ∧
    ehostTotal s' = ehostTotal s := by
  obtain ⟨hne, hstale, hrc1, hrcclosed, hexc, hehost⟩ := hInv
  have hlen0 : 0 < s.sockets.length := List.length_pos.2 hne
  have hcglen : curGen s < s.sockets.length := by
    simp only [curGen]
    omega
  obtain ⟨hcl, hz⟩ := hexc hex
  have hall : ∀ g, statusOf s g = SockStatus.closed := by
    intro g
    by_cases h1 : g + 1 < s.sockets.length
    · exact hstale g h1
    · by_cases h2 : g < s.sockets.length
      · have hgc : g = curGen s := by
          simp only [curGen]
          omega
        rw [hgc]
        exact hcl
      · exact statusOf_default s (le_of_not_lt h2)
  cases a with
  | sockOpen g r =>
    simp only [step] at hstep
    split at hstep
    case isFalse => exact absurd hstep (by simp)
    case isTrue hcon =>
      rw [hall g] at hcon
      exact absurd hcon (by decide)
  | sockClose g r =>
    simp only [step] at hstep
    split at hstep
    case isTrue => exact absurd hstep (by simp)
    case isFalse hncl => exact absurd (hall g) hncl
  | fireTask i =>
    simp only [step] at hstep
    cases hidx : s.pending[i]? with
    | none => rw [hidx] at hstep; exact absurd hstep (by simp)
    | some t =>
      rw [hidx, Option.some.injEq] at hstep
      subst hstep
      have hcE : s.pending.countP isEmitEhost =
          (s.pending.eraseIdx i).countP isEmitEhost + (if isEmitEhost t = true then 1 else 0) :=
        countP_eraseIdx_eq isEmitEhost s.pending i t hidx
      cases t with
      | timeout g0 =>
        have hs' : runTask { s with pending := s.pending.eraseIdx i } (TaskKind.timeout g0) =
            { sockets := s.sockets.set (curGen s) (closeTransition (statusOf s (curGen s))),
              reconnectDelay := s.reconnectDelay, retriesCount := s.retriesCount,
              shouldRetry := s.shouldRetry,
              pending := s.pending.eraseIdx i ++ [TaskKind.emitErr ErrCode.ETIMEDOUT],
              errors := s.errors } := rfl
        rw [hs']
    
        refine ⟨List.length_set .., rfl, ?_⟩
        show s.errors.countP isEhostErr + ((s.pending.eraseIdx i) ++
            [TaskKind.emitErr ErrCode.ETIMEDOUT]).countP isEmitEhost =
          s.errors.countP isEhostErr + s.pending.countP isEmitEhost
        rw [List.countP_append]
        have hifE : (if isEmitEhost (TaskKind.timeout g0) = true then 1 else 0) = 0 := rfl
        have hsingE : [TaskKind.emitErr ErrCode.ETIMEDOUT].countP isEmitEhost = 0 := rfl
        omega
      | reconnect d =>
        exfalso
        have hmem : TaskKind.reconnect d ∈ s.pending := List.getElem?_mem hidx
        have hpos : 0 < s.pending.countP isReconnect :=
          List.countP_pos_iff.2 ⟨TaskKind.reconnect d, hmem, rfl⟩
        have hz' : s.pending.countP isReconnect = 0 := hz
        omega
      | emitErr c =>
        have hs' : runTask { s with pending := s.pending.eraseIdx i } (TaskKind.emitErr c) =
            { sockets := s.sockets, reconnectDelay := s.reconnectDelay,
              retriesCount := s.retriesCount, shouldRetry := s.shouldRetry,
              pending := s.pending.eraseIdx i, errors := s.errors ++ [c] } := rfl
        rw [hs']
        refine ⟨rfl, rfl, ?_⟩
        show (s.errors ++ [c]).countP isEhostErr + (s.pending.eraseIdx i).countP isEmitEhost =
          s.errors.countP isEhostErr + s.pending.countP isEmitEhost
        rw [List.countP_append]
        cases c with
        | EHOSTDOWN =>
          have h1 : [ErrCode.EHOSTDOWN].countP isEhostErr = 1 := rfl
          have h2 : (if isEmitEhost (TaskKind.emitErr ErrCode.EHOSTDOWN) = true
              then 1 else 0) = 1 := rfl
          rw [h1]
          omega
        | ETIMEDOUT =>
          have h1 : [ErrCode.ETIMEDOUT].countP isEhostErr = 0 := rfl
          have h2 : (if isEmitEhost (TaskKind.emitErr ErrCode.ETIMEDOUT) = true
              then 1 else 0) = 0 := rfl
          rw [h1]
          omega
  | callerClose =>
    simp only [step, Option.some.injEq] at hstep
    subst hstep
    exact ⟨List.length_set .., rfl, rfl⟩

/-- Once the retry budget is exceeded, whole runs preserve those quantities
and the invariant. -/
theorem stalled_run (cfg : Config) (s s' : State) (acts : List EnvAct)
    (hInv : MachineInv cfg s) (hex : exceedsMax cfg s.retriesCount = true)
    (hrun : execRun cfg s acts = some s') :
    s'.sockets.length = s.sockets.length ∧ s'.retriesCount = s.retriesCount ∧
    ehostTotal s' = ehostTotal s ∧ MachineInv cfg s' := by
  induction acts generalizing s with
  | nil =>
    simp only [execRun, Option.some.injEq] at hrun
    subst hrun
    exact ⟨rfl, rfl, rfl, ⟨hInv.1, hInv.2.1, hInv.2.2.1, hInv.2.2.2.1, hInv.2.2.2.2.1,
      hInv.2.2.2.2.2⟩⟩
  | cons a as ih =>
    simp only [execRun] at hrun
    cases hstep : step cfg s a with
    | none => rw [hstep] at hrun; cases hrun
    | some s1 =>
      rw [hstep] at hrun
      obtain ⟨hl1, hr1, he1⟩ := stalled_step cfg s s1 a hInv hex hstep
      have hInv1 : MachineInv cfg s1 := machineInv_step cfg s s1 a hInv hstep
      have hex1 : exceedsMax cfg s1.retriesCount = true := by rwa [hr1]
      obtain ⟨hl2, hr2, he2, hInv2⟩ := ih s1 hInv1 hex1 hrun
      exact ⟨hl2.trans hl1, hr2.trans hr1, he2.trans he1, hInv2⟩

/-- Claim C3: on every reachable state the number of `EHOSTDOWN` emissions
(dispatched plus still-deferred; nothing ever cancels a deferred dispatch) is
one exactly when `retriesCount` has exceeded `maxRetries` and zero before,
so the error is emitted exactly once; and from any state past the budget no
reconnect is pending and no future step grows the socket list (no further
connect is scheduled or executed) or emits again. -/
theorem c3_ehostdown_once_and_stop (cfg : Config) (s : State) (hs : Reachable cfg s) :
    ehostTotal s = (if exceedsMax cfg s.retriesCount then 1 else 0) ∧
    (exceedsMax cfg s.retriesCount = true →
      reconCount s = 0 ∧
      ∀ acts s', execRun cfg s acts = some s' →
        s'.sockets.length = s.sockets.length ∧ ehostTotal s' = 1 ∧ reconCount s' = 0) := by
  obtain ⟨acts0, hrun0⟩ := hs
  have hInv : MachineInv cfg s :=
    machineInv_run cfg initState s acts0 (machineInv_init cfg) hrun0
  refine ⟨hInv.2.2.2.2.2, ?_⟩
  intro hex
  refine ⟨(hInv.2.2.2.2.1 hex).2, ?_⟩
  intro acts s' hrun
  obtain ⟨hl, hr, he, hInv'⟩ := stalled_run cfg s s' acts hInv hex hrun
  have hex' : exceedsMax cfg s'.retriesCount = true := by rwa [hr]
  refine ⟨hl, ?_, (hInv'.2.2.2.2.1 hex').2⟩
  rw [he, hInv.2.2.2.2.2, hex]
  rfl

/-- Witness for C3: with `maxRetries 0` the very first failure exceeds the
budget; the reached state has exactly one `EHOSTDOWN` emission and no pending
reconnect. -/
theorem c3_witness :
    execRun cfgC3 initState [EnvAct.sockClose 0 0] = some c3stall ∧
    exceedsMax cfgC3 c3stall.retriesCount = true ∧
    ehostTotal c3stall = 1 ∧ reconCount c3stall = 0 := by
  have hrun : execRun cfgC3 initState [EnvAct.sockClose 0 0] = some c3stall := by
    norm_num [execRun, step, statusOf, curGen, initState, connectRun, closeEvent,
      closeDelayStep, updateReconnectionDelay, initReconnectionDelay, exceedsMax,
      jsClose, runTask, closeTransition, cfgC3, c3stall]
    decide
  have h := c3_ehostdown_once_and_stop cfgC3 c3stall ⟨[EnvAct.sockClose 0 0], hrun⟩
  refine ⟨hrun, rfl, ?_, ?_⟩
  · rw [h.1]
    rfl
  · exact (h.2 rfl).1

/-- Registry add when the type key is absent: create the singleton array. -/
theorem addEventListenerReg_of_none (R : Registry) (t : EvType) (l : ListenerRef)
    (o : ListenerOpts) (hfind : regFind R t = none) :
    addEventListenerReg R t l o = R ++ [(t, [(l, o)])] := by
  unfold addEventListenerReg
  simp only [hfind]

/-- Registry add when the listener is already registered for the type: no-op. -/
theorem addEventListenerReg_of_dup (R : Registry) (t : EvType) (l : ListenerRef)
    (o : ListenerOpts) (arr : List (ListenerRef × ListenerOpts))
    (hfind : regFind R t = some arr) (hany : (arr.any (fun q => q.1 == l)) = true) :
    addEventListenerReg R t l o = R := by
  unfold addEventListenerReg
  simp only [hfind]
  rw [if_pos hany]

/-- Registry add when the type exists but the listener is new: push the pair. -/
theorem addEventListenerReg_of_fresh (R : Registry) (t : EvType) (l : ListenerRef)
    (o : ListenerOpts) (arr : List (ListenerRef × ListenerOpts))
    (hfind : regFind R t = some arr) (hany : ¬ (arr.any (fun q => q.1 == l)) = true) :
    addEventListenerReg R t l o =
      R.map (fun p => if p.1 == t then (p.1, p.2 ++ [(l, o)]) else p) := by
  unfold addEventListenerReg
  simp only [hfind]
  rw [if_neg hany]

/-- Lookup after the push-update of the matching binding. -/
theorem regFind_add_update (R : Registry) (t : EvType) (l : ListenerRef) (o : ListenerOpts) :
    regFind (R.map (fun p => if p.1 == t then (p.1, p.2 ++ [(l, o)]) else p)) t =
      (regFind R t).map (fun arr => arr ++ [(l, o)]) := by
  induction R with
  | nil => rfl
  | cons p R' ih =>
    by_cases hpt : (p.1 == t) = true
    · rw [List.map_cons, if_pos hpt]
      show regFind ((p.1, p.2 ++ [(l, o)]) :: _) t = _
      rw [regFind, if_pos hpt, regFind, if_pos hpt]
      rfl
    · rw [List.map_cons, if_neg hpt]
      show regFind (p :: _) t = _
      rw [regFind, if_neg hpt, regFind, if_neg hpt]
      exact ih

/-- Lookup after a fresh binding is appended. -/
theorem regFind_append_singleton_of_none (R : Registry) (t : EvType)
    (arr : List (ListenerRef × ListenerOpts)) (h : regFind R t = none) :
    regFind (R ++ [(t, arr)]) t = some arr := by
  induction R with
  | nil =>
    show regFind [(t, arr)] t = some arr
    rw [regFind, if_pos (by simp)]
  | cons p R' ih =>
    rw [regFind] at h
    by_cases hpt : (p.1 == t) = true
    · rw [if_pos hpt] at h
      cases h
    · rw [if_neg hpt] at h
      rw [List.cons_append, regFind, if_neg hpt]
      exact ih h

/-- A failed lookup means the key is absent. -/
theorem not_mem_keys_of_regFind_none (R : Registry) (t : EvType) (h : regFind R t = none) :
    t ∉ R.map Prod.fst := by
  induction R with
  | nil => simp
  | cons q R' ih =>
    rw [regFind] at h
    by_cases hqt : (q.1 == t) = true
    · rw [if_pos hqt] at h
      cases h
    · rw [if_neg hqt] at h
      simp only [List.map_cons, List.mem_cons]
      rintro (h1 | h1)
      · exact hqt (by rw [h1]; simp)
      · exact ih h h1

/-- With one array per type key, lookup returns the member binding. -/
theorem regFind_eq_of_mem (R : Registry) (t : EvType)
    (p : EvType × List (ListenerRef × ListenerOpts))
    (hnd : (R.map Prod.fst).Nodup) (hmem : p ∈ R) (hpt : (p.1 == t) = true) :
    regFind R t = some p.2 := by
  induction R with
  | nil => cases hmem
  | cons q R' ih =>
    rw [List.map_cons, List.nodup_cons] at hnd
    rcases List.mem_cons.1 hmem with h | h
    · subst h
      rw [regFind, if_pos hpt]
    · by_cases hqt : (q.1 == t) = true
      · exfalso
        have hp1 : p.1 = t := by simpa using hpt
        have hq1 : q.1 = t := by simpa using hqt
        exact hnd.1 (by rw [hq1, ← hp1]; exact List.mem_map_of_mem Prod.fst h)
      · rw [regFind, if_neg hqt]
        exact ih hnd.2 h

/-- The push-update leaves the key sequence unchanged. -/
theorem keys_add_update (R : Registry) (t : EvType) (l : ListenerRef) (o : ListenerOpts) :
    (R.map (fun p => if p.1 == t then (p.1, p.2 ++ [(l, o)]) else p)).map Prod.fst =
      R.map Prod.fst := by
  rw [List.map_map]
  apply List.map_congr_left
  intro p _
  by_cases hpt : (p.1 == t) = true
  · simp [Function.comp, hpt]
  · simp [Function.comp, hpt]

/-- Well-formedness of the registry is preserved by `addEventListener`. -/
theorem WFReg_addEventListenerReg (R : Registry) (t : EvType) (l : ListenerRef)
    (o : ListenerOpts) (hWF : WFReg R) : WFReg (addEventListenerReg R t l o) := by
  obtain ⟨hkeys, hinner⟩ := hWF
  cases hfind : regFind R t with
  | none =>
    rw [addEventListenerReg_of_none R t l o hfind]
    constructor
    · rw [List.map_append]
      refine List.Nodup.append hkeys (by simp) ?_
      intro a ha hb
      simp only [List.map_cons, List.map_nil, List.mem_singleton] at hb
      subst hb
      exact not_mem_keys_of_regFind_none R a hfind ha
    · intro p hp
      rcases List.mem_append.1 hp with h | h
      · exact hinner p h
      · simp only [List.mem_singleton] at h
        subst h
        simp
  | some arr =>
    by_cases hany : (arr.any (fun q => q.1 == l)) = true
    · rw [addEventListenerReg_of_dup R t l o arr hfind hany]
      exact ⟨hkeys, hinner⟩
    · rw [addEventListenerReg_of_fresh R t l o arr hfind hany]
      constructor
      · rw [keys_add_update]
        exact hkeys
      · intro p' hp'
        obtain ⟨p, hpmem, hpe⟩ := List.mem_map.1 hp'
        by_cases hpt : (p.1 == t) = true
        · rw [if_pos hpt] at hpe
          subst hpe
          have harr : regFind R t = some p.2 := regFind_eq_of_mem R t p hkeys hpmem hpt
          rw [hfind] at harr
          have harr2 : arr = p.2 := by injection harr
          show ((p.2 ++ [(l, o)]).map Prod.fst).Nodup
          rw [List.map_append]
          refine List.Nodup.append (hinner p hpmem) (by simp) ?_
          intro a ha hb
          simp only [List.map_cons, List.map_nil, List.mem_singleton] at hb
          obtain ⟨q, hq, hqe⟩ := List.mem_map.1 ha
          apply hany
          refine List.any_eq_true.2 ⟨q, ?_, ?_⟩
          · rw [harr2]
            exact hq
          · rw [hqe, hb]
            simp
        · rw [if_neg hpt] at hpe
          subst hpe
          exact hinner p hpmem

/-- Unfolding of the attach sequence on a cons. -/
theorem attachSeq_cons (p : EvType × List (ListenerRef × ListenerOpts)) (R : Registry) :
    attachSeq (p :: R) = (p.2.map (fun q => (p.1, q.1, q.2))) ++ attachSeq R := rfl

/-- Every attachment stems from a binding of its type. -/
theorem mem_attachSeq_key (R : Registry) (x : EvType × ListenerRef × ListenerOpts)
    (hx : x ∈ attachSeq R) : x.1 ∈ R.map Prod.fst := by
  induction R with
  | nil => cases hx
  | cons p R' ih =>
    rw [attachSeq_cons] at hx
    rcases List.mem_append.1 hx with h | h
    · obtain ⟨q, _, he⟩ := List.mem_map.1 h
      rw [← he]
      simp
    · simp only [List.map_cons, List.mem_cons]
      exact Or.inr (ih h)

/-- A well-formed registry attaches each (type, listener) pair once. -/
theorem attachSeq_keys_nodup (R : Registry) (hWF : WFReg R) :
    ((attachSeq R).map keyOf).Nodup := by
  induction R with
  | nil => simp [attachSeq]
  | cons p R' ih =>
    obtain ⟨hkeys, hinner⟩ := hWF
    rw [List.map_cons, List.nodup_cons] at hkeys
    rw [attachSeq_cons, List.map_append]
    refine List.Nodup.append ?_
      (ih ⟨hkeys.2, fun q hq => hinner q (List.mem_cons_of_mem _ hq)⟩) ?_
    · rw [List.map_map]
      have he : (keyOf ∘ (fun q : ListenerRef × ListenerOpts => (p.1, q.1, q.2))) =
          fun q : ListenerRef × ListenerOpts => (p.1, q.1) := rfl
      rw [he]
      have h2 : p.2.map (fun q : ListenerRef × ListenerOpts => (p.1, q.1)) =
          (p.2.map Prod.fst).map (fun a => (p.1, a)) := by
        rw [List.map_map]
        rfl
      rw [h2]
      refine (hinner p (List.mem_cons_self _ _)).map ?_
      intro a b hab
      exact congrArg Prod.snd hab
    · intro a ha hb
      obtain ⟨q, hqmem, hqe⟩ := List.mem_map.1 ha
      obtain ⟨q2, _, hq2e⟩ := List.mem_map.1 hqmem
      obtain ⟨x, hxmem, hxe⟩ := List.mem_map.1 hb
      apply hkeys.1
      have ha1 : a.1 = p.1 := by
        rw [← hqe, ← hq2e]
        rfl
      have hx1 : x.1 = a.1 := by
        rw [← hxe]
        rfl
      rw [← ha1, ← hx1]
      exact mem_attachSeq_key R' x hxmem

/-- Attaching a duplicate-free sequence to a socket never triggers the DOM
deduplication, so the attachments are exactly the sequence. -/
theorem foldl_sockAdd_of_nodup :
    ∀ (xs acc : SockListeners), ((acc ++ xs).map keyOf).Nodup →
      xs.foldl (fun a x => sockAddListener a x.1 x.2.1 x.2.2) acc = acc ++ xs := by
  intro xs
  induction xs with
  | nil =>
    intro acc _
    simp
  | cons x rest ih =>
    intro acc h
    have hnotin : keyOf x ∉ acc.map keyOf := by
      rw [List.map_append] at h
      have hd := (List.nodup_append.1 h).2.2
      intro hmem
      exact hd hmem (by simp)
    have hany : (acc.any (fun q => q.1 == x.1 && q.2.1 == x.2.1)) = false := by
      refine List.any_eq_false.2 ?_
      intro q hq hpq
      apply hnotin
      have hkq : keyOf q = keyOf x := by
        have h1 : (q.1 == x.1) = true ∧ (q.2.1 == x.2.1) = true := by
          simpa using hpq
        have e1 : q.1 = x.1 := by simpa using h1.1
        have e2 : q.2.1 = x.2.1 := by simpa using h1.2
        show (q.1, q.2.1) = (x.1, x.2.1)
        rw [e1, e2]
      rw [← hkq]
      exact List.mem_map_of_mem keyOf hq
    show List.foldl _ (sockAddListener acc x.1 x.2.1 x.2.2) rest = acc ++ x :: rest
    have hstep : sockAddListener acc x.1 x.2.1 x.2.2 = acc ++ [x] := by
      unfold sockAddListener
      rw [hany]
      simp only [Bool.false_eq_true, if_false]
    rw [hstep]
    rw [ih (acc ++ [x]) (by rwa [List.append_assoc, List.singleton_append])]
    rw [List.append_assoc, List.singleton_append]

/-- A socket carrying exactly the attach sequence of a well-formed registry
delivers each event to the registered listeners of its type, in order. -/
theorem deliveries_attachSeq (R : Registry) (hWF : WFReg R) (t : EvType) :
    deliveries (attachSeq R) t = (regList R t).map Prod.fst := by
  induction R with
  | nil => rfl
  | cons p R' ih =>
    obtain ⟨hkeys, hinner⟩ := hWF
    rw [List.map_cons, List.nodup_cons] at hkeys
    rw [attachSeq_cons]
    unfold deliveries
    rw [List.filter_append, List.map_append]
    by_cases hpt : (p.1 == t) = true
    · have hb : (p.2.map (fun q => (p.1, q.1, q.2))).filter
          (fun q => q.1 == t) = p.2.map (fun q => (p.1, q.1, q.2)) := by
        refine List.filter_eq_self.2 ?_
        intro x hx
        obtain ⟨q, _, he⟩ := List.mem_map.1 hx
        rw [← he]
        exact hpt
      have hr : (attachSeq R').filter (fun q => q.1 == t) = [] := by
        refine List.filter_eq_nil_iff.2 ?_
        intro x hx hxt
        have hxk := mem_attachSeq_key R' x hx
        have hp1t : p.1 = t := by simpa using hpt
        have hxt' : x.1 = t := by simpa using hxt
        exact hkeys.1 (by rw [hp1t, ← hxt']; exact hxk)
      rw [hb, hr]
      have hreg : regList (p :: R') t = p.2 := by
        unfold regList
        rw [show regFind (p :: R') t = some p.2 from by rw [regFind, if_pos hpt]]
        rfl
      rw [hreg]
      rw [List.map_map, List.map_nil, List.append_nil]
      rfl
    · have hb : (p.2.map (fun q => (p.1, q.1, q.2))).filter (fun q => q.1 == t) = [] := by
        refine List.filter_eq_nil_iff.2 ?_
        intro x hx hxt
        obtain ⟨q, _, he⟩ := List.mem_map.1 hx
        apply hpt
        rw [← he] at hxt
        exact hxt
      have hreg : regList (p :: R') t = regList R' t := by
        unfold regList
        rw [show regFind (p :: R') t = regFind R' t from by rw [regFind, if_neg hpt]]
      rw [hb, hreg, List.map_nil, List.nil_append]
      exact ih ⟨hkeys.2, fun q hq => hinner q (List.mem_cons_of_mem _ hq)⟩

/-- Claim C6: `addEventListener` is idempotent on the registry (a duplicate
(type, listener) registration, whatever its options, is a no-op), a fresh
registration appends exactly one entry, and `reassignEventListeners` applied
to a fresh socket attaches the full registry in registration order, so each
event type is delivered to exactly the registered listeners in order — in
particular a doubly-registered listener is delivered to exactly once, also
after a reconnect. -/
theorem c6_addEventListener_idempotent_reattach (R : Registry) (t : EvType)
    (l : ListenerRef) (o o2 : ListenerOpts) (hWF : WFReg R) :
    addEventListenerReg (addEventListenerReg R t l o) t l o2 = addEventListenerReg R t l o ∧
    (l ∉ (regList R t).map Prod.fst →
      regList (addEventListenerReg R t l o) t = regList R t ++ [(l, o)]) ∧
    (∀ t2, deliveries (reassignEventListeners [] (addEventListenerReg R t l o)) t2 =
      (regList (addEventListenerReg R t l o) t2).map Prod.fst) ∧
    (l ∉ (regList R t).map Prod.fst →
      (deliveries (reassignEventListeners []
        (addEventListenerReg (addEventListenerReg R t l o) t l o2)) t).count l = 1) := by
  have hWF1 : WFReg (addEventListenerReg R t l o) := WFReg_addEventListenerReg R t l o hWF
  have hA : addEventListenerReg (addEventListenerReg R t l o) t l o2 =
      addEventListenerReg R t l o := by
    cases hfind : regFind R t with
    | none =>
      rw [addEventListenerReg_of_none R t l o hfind]
      have hf2 : regFind (R ++ [(t, [(l, o)])]) t = some [(l, o)] :=
        regFind_append_singleton_of_none R t _ hfind
      exact addEventListenerReg_of_dup _ t l o2 _ hf2 (by simp)
    | some arr =>
      by_cases hany : (arr.any (fun q => q.1 == l)) = true
      · rw [addEventListenerReg_of_dup R t l o arr hfind hany]
        exact addEventListenerReg_of_dup R t l o2 arr hfind hany
      · rw [addEventListenerReg_of_fresh R t l o arr hfind hany]
        have hf2 : regFind (R.map (fun p => if p.1 == t then (p.1, p.2 ++ [(l, o)]) else p)) t
            = some (arr ++ [(l, o)]) := by
          rw [regFind_add_update, hfind]
          rfl
        exact addEventListenerReg_of_dup _ t l o2 _ hf2 (by simp)
  have hB : l ∉ (regList R t).map Prod.fst →
      regList (addEventListenerReg R t l o) t = regList R t ++ [(l, o)] := by
    intro hnot
    cases hfind : regFind R t with
    | none =>
      rw [addEventListenerReg_of_none R t l o hfind]
      unfold regList
      rw [regFind_append_singleton_of_none R t _ hfind, hfind]
      rfl
    | some arr =>
      have hany : ¬ (arr.any (fun q => q.1 == l)) = true := by
        intro hx
        obtain ⟨q, hq, hql⟩ := List.any_eq_true.1 hx
        apply hnot
        have harr : regList R t = arr := by
          unfold regList
          rw [hfind]
          rfl
        rw [harr]
        have hq1 : q.1 = l := by simpa using hql
        rw [← hq1]
        exact List.mem_map_of_mem Prod.fst hq
      rw [addEventListenerReg_of_fresh R t l o arr hfind hany]
      unfold regList
      rw [regFind_add_update, hfind]
      rfl
  have hC : ∀ t2, deliveries (reassignEventListeners [] (addEventListenerReg R t l o)) t2 =
      (regList (addEventListenerReg R t l o) t2).map Prod.fst := by
    intro t2
    have hre : reassignEventListeners [] (addEventListenerReg R t l o) =
        attachSeq (addEventListenerReg R t l o) := by
      unfold reassignEventListeners
      have hh := foldl_sockAdd_of_nodup (attachSeq (addEventListenerReg R t l o)) []
        (by rw [List.nil_append]; exact attachSeq_keys_nodup _ hWF1)
      rw [hh, List.nil_append]
    rw [hre]
    exact deliveries_attachSeq _ hWF1 t2
  refine ⟨hA, hB, hC, ?_⟩
  intro hnot
  rw [hA, hC t, hB hnot, List.map_append, List.count_append]
  rw [List.count_eq_zero.2 hnot]
  simp

/-- Witness for C6 at a concrete registry with one prior binding. -/
theorem c6_witness :
    WFReg [((0 : EvType), [((5 : ListenerRef), (0 : ListenerOpts))])] ∧
    addEventListenerReg (addEventListenerReg [(0, [(5, 0)])] 1 7 3) 1 7 4 =
      addEventListenerReg [(0, [(5, 0)])] 1 7 3 ∧
    (deliveries (reassignEventListeners []
      (addEventListenerReg (addEventListenerReg [(0, [(5, 0)])] 1 7 3) 1 7 4)) 1).count 7 = 1 := by
  have h := c6_addEventListener_idempotent_reattach [(0, [(5, 0)])] 1 7 3 4
    ⟨by decide, by decide⟩
  exact ⟨⟨by decide, by decide⟩, h.1, h.2.2.2 (by decide)⟩

/-- Claim C5 is violated by the code: `const config = DEFAULT_OPTIONS`
(line 56) aliases the shared defaults table, so the merge loop of a first
construction writes the caller's options into the shared table, and a second
instance constructed with an empty options object observes the first
caller's `maxReconnectionDelay 5` instead of the documented default
`10000`. -/
theorem c5_defaults_table_mutated :
    (DEFAULT_OPTIONS true).maxReconnectionDelay = 10000 ∧
    (constructStep (DEFAULT_OPTIONS true) true { maxReconnectionDelay := some 5 }).1 =
      Except.ok tableAfterFirst ∧
    (constructStep tableAfterFirst true {}).1 = Except.ok secondInstanceConfig ∧
    secondInstanceConfig.maxReconnectionDelay = 5 ∧
    ¬ secondInstanceConfig.maxReconnectionDelay = 10000 := by
  refine ⟨?_, ?_, ?_, ?_, ?_⟩ <;>
    norm_num [DEFAULT_OPTIONS, constructStep, mergeInto, tableAfterFirst, secondInstanceConfig]

/-- Claim C8: construction throws its synchronous `TypeError` exactly when it
is not invoked as a constructor or the merged config's socket factory is not
a function; with a valid invocation and factory it returns the merged config
without throwing; and the public `close()` operation is total on every
machine state (no other synchronous throw). -/
theorem c8_construct_throw_iff (tbl : OptionsTable) (b : Bool) (o : PartialOptions) :
    ((constructStep tbl b o).1.isOk = true ↔
      (b = true ∧ (mergeInto tbl o).ctorVal = JSVal.jsFunction)) ∧
    (∀ cfg : Config, ∀ s : State, (step cfg s EnvAct.callerClose).isSome = true) := by
  constructor
  · cases b with
    | false =>
      simp [constructStep]
      rfl
    | true =>
      by_cases hc : (mergeInto tbl o).ctorVal = JSVal.jsFunction
      · simp [constructStep, hc]
        rfl
      · simp [constructStep, hc]
        rfl
  · intro cfg s
    rfl

/-- Witness for C8: the default table with a global factory and an empty
options object constructs successfully. -/
theorem c8_witness :
    (constructStep (DEFAULT_OPTIONS true) true {}).1.isOk = true :=
  (c8_construct_throw_iff (DEFAULT_OPTIONS true) true {}).1.mpr ⟨rfl, rfl⟩
